import Mathlib

/-!
Verification of the LLM-response normalization and batch-generation pipeline
of the corporate-narrative-engine repository.

The development shallowly embeds the service-layer functions (`safeParseJson`,
`normalizeNewsletters`, `ensureYearMonths`, the `normalizeYear` reconciliation
pass inside `generateCompanyHistory`, `generateLocalFinancialDocuments`,
`chunkArray`, the JE branch of `generateBulkDocuments`, and
`generateFallbackJESections`) as executable Lean definitions and proves the
spec's testable properties about them.

Modelling conventions:
* JavaScript numbers are modelled by rationals (`ℚ`).  IEEE-754 rounding and
  `NaN` propagation inside otherwise-numeric arithmetic are outside the model;
  a field that is `undefined` (or otherwise fails a `typeof x === "number"`
  test) is modelled by `none` in an `Option ℚ`.
* JSON values are modelled by an inductive `Json` whose numbers are integers;
  fractional/exponent number syntax and non-ASCII whitespace are outside the
  model.  JavaScript `null` and a missing (`undefined`) object key are kept
  apart: a missing key is `none` from `jsGet`, `null` is `Json.null`.
* Functions that can throw are embedded in `Except`; a `try/catch` in the
  source becomes an explicit `match` on the `Except`.
-/

namespace CNE

/-- A JavaScript numeric field as it reaches the reconciliation pass: a number
(modelled by a rational) or `undefined` (modelled by `none`). -/
abbrev JSNum := Option ℚ

/-- `Number(v || 0)` for a number-or-undefined `v`: `undefined` and `0` are
falsy and give `0`, every other number passes through. -/
def jsCoerce0 (v : JSNum) : ℚ := v.getD 0

/-- Truthiness filter: keeps a value only when JavaScript would consider it
truthy (`undefined`, `NaN` and `0` are falsy). -/
def jsTruthy (v : JSNum) : JSNum :=
  match v with
  | some q => if q = 0 then none else some q
  | none => none

/-- `Number(a || b || 0)` for number-or-undefined `a`, `b`. -/
def jsOr2 (a b : JSNum) : ℚ :=
  match jsTruthy a with
  | some q => q
  | none =>
    match jsTruthy b with
    | some q => q
    | none => 0

/-- JavaScript subtraction: `undefined` on either side yields `NaN`, which the
model folds into `none` (both are falsy, which is all the callers test). -/
def jsSub (a b : JSNum) : JSNum :=
  match a, b with
  | some x, some y => some (x - y)
  | _, _ => none

/-- `Math.round`: round half away from zero upwards, i.e. `⌊x + 1/2⌋`. -/
def jsRound (q : ℚ) : ℤ := ⌊q + 1 / 2⌋

/-- `currentAssets` block of `DetailedFinancials` (src/unnamed/part_003). -/
structure CurrentAssets where
  cash : JSNum
  notesReceivable : JSNum
  accountsReceivable : JSNum
  inventory : JSNum
  other : JSNum
deriving DecidableEq

/-- `fixedAssets` block of `DetailedFinancials`. -/
structure FixedAssets where
  tangible : JSNum
  intangible : JSNum
  investments : JSNum
deriving DecidableEq

/-- `currentLiabilities` block of `DetailedFinancials`. -/
structure CurrentLiabilities where
  notesPayable : JSNum
  accountsPayable : JSNum
  shortTermDebt : JSNum
  other : JSNum
deriving DecidableEq

/-- `fixedLiabilities` block of `DetailedFinancials`. -/
structure FixedLiabilities where
  longTermDebt : JSNum
  other : JSNum
deriving DecidableEq

/-- `netAssets` block of `DetailedFinancials`. -/
structure NetAssets where
  capitalStock : JSNum
  retainedEarnings : JSNum
  other : JSNum
deriving DecidableEq

/-- The `DetailedFinancials` interface (src/unnamed/part_003).  Every numeric
field is number-or-undefined as it may arrive from the model unparsed. -/
structure DetailedFinancials where
  sales : JSNum
  cogs : JSNum
  grossProfit : JSNum
  sga : JSNum
  operatingProfit : JSNum
  nonOperatingIncome : JSNum
  nonOperatingExpenses : JSNum
  ordinaryProfit : JSNum
  extraordinaryIncome : JSNum
  extraordinaryLoss : JSNum
  preTaxProfit : JSNum
  tax : JSNum
  netProfit : JSNum
  currentAssets : CurrentAssets
  fixedAssets : FixedAssets
  totalAssets : JSNum
  currentLiabilities : CurrentLiabilities
  fixedLiabilities : FixedLiabilities
  totalLiabilities : JSNum
  netAssets : NetAssets
  totalNetAssets : JSNum
  operatingCF : JSNum
  investingCF : JSNum
  financingCF : JSNum
  cashAtBeginning : JSNum
  cashAtEnd : JSNum
deriving DecidableEq

/-- `Object.values(f.currentAssets).reduce((a, b) => a + Number(b || 0), 0)`. -/
def currentAssetsSum (a : CurrentAssets) : ℚ :=
  jsCoerce0 a.cash + jsCoerce0 a.notesReceivable + jsCoerce0 a.accountsReceivable +
    jsCoerce0 a.inventory + jsCoerce0 a.other

/-- Sum over the `fixedAssets` sub-fields with `Number(b || 0)` coercion. -/
def fixedAssetsSum (a : FixedAssets) : ℚ :=
  jsCoerce0 a.tangible + jsCoerce0 a.intangible + jsCoerce0 a.investments

/-- Sum over the `currentLiabilities` sub-fields with `Number(b || 0)` coercion. -/
def currentLiabilitiesSum (l : CurrentLiabilities) : ℚ :=
  jsCoerce0 l.notesPayable + jsCoerce0 l.accountsPayable + jsCoerce0 l.shortTermDebt +
    jsCoerce0 l.other

/-- Sum over the `fixedLiabilities` sub-fields with `Number(b || 0)` coercion. -/
def fixedLiabilitiesSum (l : FixedLiabilities) : ℚ :=
  jsCoerce0 l.longTermDebt + jsCoerce0 l.other

/-- The body of `normalizeYear` (src/unnamed/part_001 lines 804-923) applied to
a `financials` block.  The source wraps each P&L step in `try/catch`; numeric
arithmetic cannot throw there, so the catch branches are dead and omitted.  The
`netAssetsSum` local of the source is computed but never used and is omitted.
The estimated-tax constant `0.3` is embedded as the rational `3/10`. -/
def reconcileFinancials (f : DetailedFinancials) : DetailedFinancials :=
  -- f.grossProfit = Number(f.sales - f.cogs || f.grossProfit || 0)
  let grossProfit : ℚ := jsOr2 (jsSub f.sales f.cogs) f.grossProfit
  -- f.operatingProfit = Number(f.grossProfit - f.sga || f.operatingProfit || 0)
  let operatingProfit : ℚ := jsOr2 (jsSub (some grossProfit) f.sga) f.operatingProfit
  -- f.ordinaryProfit = Number(f.operatingProfit + (f.nonOperatingIncome || 0)
  --   - (f.nonOperatingExpenses || 0) || f.ordinaryProfit || 0)
  let ordinaryProfit : ℚ :=
    jsOr2 (some (operatingProfit + jsCoerce0 f.nonOperatingIncome -
      jsCoerce0 f.nonOperatingExpenses)) f.ordinaryProfit
  let preTaxProfit : ℚ :=
    jsOr2 (some (ordinaryProfit + jsCoerce0 f.extraordinaryIncome -
      jsCoerce0 f.extraordinaryLoss)) f.preTaxProfit
  -- if (typeof f.tax !== "number" || isNaN(f.tax)) estimate 30% on positive pre-tax
  let tax : ℚ :=
    match f.tax with
    | some q => q
    | none =>
      if 0 < preTaxProfit then (jsRound (preTaxProfit * (3 / 10) * 100) : ℚ) / 100 else 0
  let netProfit : ℚ := jsOr2 (some (preTaxProfit - tax)) f.netProfit
  let caSum : ℚ := currentAssetsSum f.currentAssets
  let faSum : ℚ := fixedAssetsSum f.fixedAssets
  let clSum : ℚ := currentLiabilitiesSum f.currentLiabilities
  let flSum : ℚ := fixedLiabilitiesSum f.fixedLiabilities
  let targetNetAssets : ℚ := (caSum + faSum) - (clSum + flSum)
  let capital : ℚ := jsCoerce0 f.netAssets.capitalStock
  let otherNet : ℚ := jsCoerce0 f.netAssets.other
  -- Recalculate cashAtEnd from CF when all four components are numbers
  let cashAtEnd : JSNum :=
    match f.cashAtBeginning, f.operatingCF, f.investingCF, f.financingCF with
    | some b, some o, some i, some fi => some (b + o + i + fi)
    | _, _, _, _ => f.cashAtEnd
  { sales := some (jsCoerce0 f.sales)
    cogs := some (jsCoerce0 f.cogs)
    grossProfit := some grossProfit
    sga := some (jsCoerce0 f.sga)
    operatingProfit := some operatingProfit
    nonOperatingIncome := some (jsCoerce0 f.nonOperatingIncome)
    nonOperatingExpenses := some (jsCoerce0 f.nonOperatingExpenses)
    ordinaryProfit := some ordinaryProfit
    extraordinaryIncome := some (jsCoerce0 f.extraordinaryIncome)
    extraordinaryLoss := some (jsCoerce0 f.extraordinaryLoss)
    preTaxProfit := some preTaxProfit
    tax := some tax
    netProfit := some netProfit
    currentAssets := f.currentAssets
    fixedAssets := f.fixedAssets
    totalAssets := some (caSum + faSum)
    currentLiabilities := f.currentLiabilities
    fixedLiabilities := f.fixedLiabilities
    totalLiabilities := some (clSum + flSum)
    netAssets :=
      { capitalStock := f.netAssets.capitalStock
        retainedEarnings := some (targetNetAssets - capital - otherNet)
        other := f.netAssets.other }
    totalNetAssets := some targetNetAssets
    operatingCF := some (jsCoerce0 f.operatingCF)
    investingCF := some (jsCoerce0 f.investingCF)
    financingCF := some (jsCoerce0 f.financingCF)
    cashAtBeginning := f.cashAtBeginning
    cashAtEnd := cashAtEnd }

/-- The `YearlyData` interface (src/unnamed/part_003). -/
structure YearlyData where
  year : ℤ
  revenue : ℚ
  operatingProfit : ℚ
  cashFlow : ℚ
  employees : ℤ
  marketContext : String
  companyEvent : String
  financials : Option DetailedFinancials
deriving DecidableEq

/-- `normalizeYear` (src/unnamed/part_001): a year without a `financials`
block passes through unchanged; otherwise its financials are reconciled. -/
def normalizeYear (y : YearlyData) : YearlyData :=
  match y.financials with
  | none => y
  | some f => { y with financials := some (reconcileFinancials f) }

/-- A `DetailedFinancials` record with every numeric field `undefined`; sample
inputs below override the fields they need. -/
def finNone : DetailedFinancials :=
  { sales := none, cogs := none, grossProfit := none, sga := none, operatingProfit := none
    nonOperatingIncome := none, nonOperatingExpenses := none, ordinaryProfit := none
    extraordinaryIncome := none, extraordinaryLoss := none, preTaxProfit := none, tax := none
    netProfit := none
    currentAssets := ⟨none, none, none, none, none⟩
    fixedAssets := ⟨none, none, none⟩
    totalAssets := none
    currentLiabilities := ⟨none, none, none, none⟩
    fixedLiabilities := ⟨none, none⟩
    totalLiabilities := none
    netAssets := ⟨none, none, none⟩
    totalNetAssets := none
    operatingCF := none, investingCF := none, financingCF := none
    cashAtBeginning := none, cashAtEnd := none }

/-- A `YearlyData` wrapper around a given financials block. -/
def yearOf (f : DetailedFinancials) : YearlyData :=
  { year := 2020, revenue := 120, operatingProfit := 10, cashFlow := 5, employees := 10
    marketContext := "ctx", companyEvent := "event", financials := some f }

/-- Deliberately inconsistent sample: sub-fields say assets 100, stored totals
say something else (spec section 8 scenario with garbage stored totals). -/
def finSampleBS : DetailedFinancials :=
  { finNone with
    currentAssets := ⟨some 100, some 0, some 0, some 0, some 0⟩
    fixedAssets := ⟨some 0, some 0, some 0⟩
    currentLiabilities := ⟨some 0, some 0, some 0, some 0⟩
    fixedLiabilities := ⟨some 0, some 0⟩
    netAssets := ⟨some 50, some 999, some 0⟩
    totalAssets := some 123
    totalLiabilities := some 456
    totalNetAssets := some 789 }

/-- Sample for the C2 counterexample: sales and cogs are equal and numeric, so
`sales - cogs` is `0`, which is falsy, so the code keeps the supplied gross
profit `7` instead of recomputing `0`. -/
def finGpCex : DetailedFinancials :=
  { finNone with sales := some 5, cogs := some 5, sga := some 1, grossProfit := some 7 }

/-- Sample for the C2 amended witness: numeric sales 10, cogs 4, sga 2 with
nonzero differences. -/
def finPl : DetailedFinancials :=
  { finNone with sales := some 10, cogs := some 4, sga := some 2 }

/-- The `DocumentType` enum (src/unnamed/part_003). -/
inductive DocumentType where
  | BS
  | PL
  | CF
  | JE
  | NEWSLETTER
deriving DecidableEq

/-- The runtime string value of a `DocumentType` (the enum values are their
own names). -/
def docTypeCode : DocumentType → String
  | .BS => "BS"
  | .PL => "PL"
  | .CF => "CF"
  | .JE => "JE"
  | .NEWSLETTER => "NEWSLETTER"

/-- `DOC_TYPE_LABELS` (src/unnamed/part_001). -/
def docTypeLabel : DocumentType → String
  | .BS => "貸借対照表"
  | .PL => "損益計算書"
  | .CF => "キャッシュ・フロー計算書"
  | .JE => "仕訳帳"
  | .NEWSLETTER => "社内報"

/-- A `FinancialTableItem.value`: the TS type is `number | string`, and an
`undefined` financial field can leak in, so the numeric side is `JSNum`. -/
inductive CellValue where
  | vstr (s : String)
  | vnum (v : JSNum)
deriving DecidableEq

/-- A BS/PL/CF line item (`FinancialTableItem` without the JE-only columns,
which the statement renderer never sets). -/
structure StmtItem where
  label : String
  value : CellValue
  isTotal : Bool := false
  indent : ℕ := 0
deriving DecidableEq

/-- A `FinancialSection` as the statement renderer builds it (title + items;
the JE-only `headers`/`breakPage` fields are never set here). -/
structure StmtSection where
  title : String
  items : List StmtItem
deriving DecidableEq

/-- A `GeneratedDocument` whose content is structured sections.  The TS
`content` union (string | sections) is split per document family in this
model; the statement renderer always produces sections. -/
structure StmtDocument where
  id : String
  dtype : DocumentType
  year : ℤ
  title : String
  sections : List StmtSection
deriving DecidableEq

/-- JavaScript `a + b` where either side may be `undefined` (the renderer's
`reduce((a, b) => a + b, 0)` has no coercion, so `undefined` poisons the sum
with `NaN`, modelled as `none`). -/
def jsAdd (a b : JSNum) : JSNum :=
  match a, b with
  | some x, some y => some (x + y)
  | _, _ => none

/-- `list.reduce((a, b) => a + b, 0)` over JS numbers. -/
def jsSumList (l : List JSNum) : JSNum := l.foldl jsAdd (some 0)

/-- `generateLocalFinancialDocuments` (src/unnamed/part_001 lines 939-1117).
Throws "Detailed financials missing" when the year has no financials block;
the JE/NEWSLETTER cases leave `sections` empty exactly as the source's
if-chain does. -/
def generateLocalFinancialDocuments (yearData : YearlyData) (type : DocumentType) :
    Except String StmtDocument :=
  match yearData.financials with
  | none => .error "Detailed financials missing"
  | some f =>
    let sections : List StmtSection :=
      if type = DocumentType.BS then
        [{ title := "資産の部"
           items :=
            [{ label := "流動資産", value := .vstr "", isTotal := true },
             { label := "現金及び預金", value := .vnum f.currentAssets.cash, indent := 1 },
             { label := "受取手形", value := .vnum f.currentAssets.notesReceivable, indent := 1 },
             { label := "売掛金", value := .vnum f.currentAssets.accountsReceivable, indent := 1 },
             { label := "棚卸資産", value := .vnum f.currentAssets.inventory, indent := 1 },
             { label := "その他", value := .vnum f.currentAssets.other, indent := 1 },
             { label := "流動資産合計"
               value := .vnum (jsSumList [f.currentAssets.cash, f.currentAssets.notesReceivable,
                 f.currentAssets.accountsReceivable, f.currentAssets.inventory,
                 f.currentAssets.other])
               isTotal := true, indent := 1 },
             { label := "固定資産", value := .vstr "", isTotal := true },
             { label := "有形固定資産", value := .vnum f.fixedAssets.tangible, indent := 1 },
             { label := "無形固定資産", value := .vnum f.fixedAssets.intangible, indent := 1 },
             { label := "投資その他の資産", value := .vnum f.fixedAssets.investments, indent := 1 },
             { label := "固定資産合計"
               value := .vnum (jsSumList [f.fixedAssets.tangible, f.fixedAssets.intangible,
                 f.fixedAssets.investments])
               isTotal := true, indent := 1 },
             { label := "資産合計", value := .vnum f.totalAssets, isTotal := true }] },
         { title := "負債の部"
           items :=
            [{ label := "流動負債", value := .vstr "", isTotal := true },
             { label := "支払手形", value := .vnum f.currentLiabilities.notesPayable, indent := 1 },
             { label := "買掛金", value := .vnum f.currentLiabilities.accountsPayable, indent := 1 },
             { label := "短期借入金", value := .vnum f.currentLiabilities.shortTermDebt, indent := 1 },
             { label := "その他", value := .vnum f.currentLiabilities.other, indent := 1 },
             { label := "流動負債合計"
               value := .vnum (jsSub f.totalLiabilities
                 (jsSumList [f.fixedLiabilities.longTermDebt, f.fixedLiabilities.other]))
               isTotal := true, indent := 1 },
             { label := "固定負債", value := .vstr "", isTotal := true },
             { label := "長期借入金", value := .vnum f.fixedLiabilities.longTermDebt, indent := 1 },
             { label := "その他", value := .vnum f.fixedLiabilities.other, indent := 1 },
             { label := "固定負債合計"
               value := .vnum (jsSumList [f.fixedLiabilities.longTermDebt,
                 f.fixedLiabilities.other])
               isTotal := true, indent := 1 },
             { label := "負債合計", value := .vnum f.totalLiabilities, isTotal := true }] },
         { title := "純資産の部"
           items :=
            [{ label := "株主資本", value := .vstr "", isTotal := true },
             { label := "資本金", value := .vnum f.netAssets.capitalStock, indent := 1 },
             { label := "利益剰余金", value := .vnum f.netAssets.retainedEarnings, indent := 1 },
             { label := "純資産合計", value := .vnum f.totalNetAssets, isTotal := true },
             { label := "負債純資産合計", value := .vnum (jsAdd f.totalLiabilities f.totalNetAssets)
               isTotal := true }] }]
      else if type = DocumentType.PL then
        [{ title := "損益計算書"
           items :=
            [{ label := "売上高", value := .vnum f.sales },
             { label := "売上原価", value := .vnum f.cogs },
             { label := "売上総利益", value := .vnum f.grossProfit, isTotal := true },
             { label := "販売費及び一般管理費", value := .vnum f.sga },
             { label := "営業利益", value := .vnum f.operatingProfit, isTotal := true },
             { label := "営業外収益", value := .vnum f.nonOperatingIncome },
             { label := "営業外費用", value := .vnum f.nonOperatingExpenses },
             { label := "経常利益", value := .vnum f.ordinaryProfit, isTotal := true },
             { label := "特別利益", value := .vnum f.extraordinaryIncome },
             { label := "特別損失", value := .vnum f.extraordinaryLoss },
             { label := "税引前当期純利益", value := .vnum f.preTaxProfit, isTotal := true },
             { label := "法人税、住民税及び事業税", value := .vnum f.tax },
             { label := "当期純利益", value := .vnum f.netProfit, isTotal := true }] }]
      else if type = DocumentType.CF then
        [{ title := "キャッシュ・フロー計算書"
           items :=
            [{ label := "営業活動によるキャッシュ・フロー", value := .vnum f.operatingCF,
               isTotal := true },
             { label := "投資活動によるキャッシュ・フロー", value := .vnum f.investingCF,
               isTotal := true },
             { label := "財務活動によるキャッシュ・フロー", value := .vnum f.financingCF,
               isTotal := true },
             { label := "現金及び現金同等物の増減額"
               value := .vnum (jsAdd (jsAdd f.operatingCF f.investingCF) f.financingCF)
               isTotal := true },
             { label := "現金及び現金同等物の期首残高", value := .vnum f.cashAtBeginning },
             { label := "現金及び現金同等物の期末残高", value := .vnum f.cashAtEnd,
               isTotal := true }] }]
      else []
    .ok
      { id := toString yearData.year ++ "-" ++ docTypeCode type
        dtype := type
        year := yearData.year
        title := docTypeLabel type
        sections := sections }

/-- The `j`-th item of the `i`-th section of a statement document. -/
def itemAt (d : StmtDocument) (i j : ℕ) : Option StmtItem :=
  (d.sections.get? i).bind fun s => s.items.get? j

/-- Sample for the C8 witness: all four cash-flow components numeric. -/
def finCf : DetailedFinancials :=
  { finNone with
    cashAtBeginning := some 100
    operatingCF := some 30
    investingCF := some (-20)
    financingCF := some 5
    cashAtEnd := some 999 }

/-- Sample for the C9 counterexample: the current-liability sub-fields sum to
10 but the stored `totalLiabilities` is the inconsistent value 999 (with all
fixed liabilities 0). -/
def finC9 : DetailedFinancials :=
  { finNone with
    currentAssets := ⟨some 1, some 0, some 0, some 0, some 0⟩
    fixedAssets := ⟨some 0, some 0, some 0⟩
    currentLiabilities := ⟨some 10, some 0, some 0, some 0⟩
    fixedLiabilities := ⟨some 0, some 0⟩
    totalLiabilities := some 999 }

/-! ### JSON values, `JSON.stringify`, and `JSON.parse`

The JSON value model restricts numbers to integers (IEEE-754 decimal
round-tripping is outside the model) and models strings as Lean strings of
Unicode scalars (UTF-16 surrogate halves are outside the model).  An `obj` is
the insertion-ordered key/value table of a JavaScript object; the inputs
handled by the claims never carry duplicate keys. -/

/-- A JSON value (also standing for any JavaScript value reachable from
`JSON.parse` output). -/
inductive Json where
  | null
  | bool (b : Bool)
  | num (n : ℤ)
  | str (s : String)
  | arr (elems : List Json)
  | obj (fields : List (String × Json))

/-- The decimal digit character for `n < 10`. -/
def digitChar : ℕ → Char
  | 0 => '0' | 1 => '1' | 2 => '2' | 3 => '3' | 4 => '4'
  | 5 => '5' | 6 => '6' | 7 => '7' | 8 => '8' | _ => '9'

/-- Decimal digits, fueled so the definition is structurally recursive (and
therefore reduces definitionally on closed inputs). -/
def serNatAux : ℕ → ℕ → List Char
  | 0, _ => []
  | fuel + 1, n =>
    if n < 10 then [digitChar n]
    else serNatAux fuel (n / 10) ++ [digitChar (n % 10)]

/-- Decimal digits of a natural number, most significant first (`n + 1` units
of fuel always suffice). -/
def serNat (n : ℕ) : List Char := serNatAux (n + 1) n

/-- Decimal rendering of an integer. -/
def serInt (z : ℤ) : List Char :=
  if z < 0 then '-' :: serNat z.natAbs else serNat z.toNat

/-- The lower-case hex digit character for `n < 16`. -/
def hexDigitChar : ℕ → Char
  | 0 => '0' | 1 => '1' | 2 => '2' | 3 => '3' | 4 => '4'
  | 5 => '5' | 6 => '6' | 7 => '7' | 8 => '8' | 9 => '9'
  | 10 => 'a' | 11 => 'b' | 12 => 'c' | 13 => 'd' | 14 => 'e' | _ => 'f'

/-- `JSON.stringify` escaping of one string character. -/
def escChar (c : Char) : List Char :=
  if c = '"' then ['\\', '"']
  else if c = '\\' then ['\\', '\\']
  else if c = Char.ofNat 8 then ['\\', 'b']
  else if c = '\t' then ['\\', 't']
  else if c = '\n' then ['\\', 'n']
  else if c = Char.ofNat 12 then ['\\', 'f']
  else if c = Char.ofNat 13 then ['\\', 'r']
  else if c.toNat < 32 then
    let hi := hexDigitChar (c.toNat / 16)
    let lo := hexDigitChar (c.toNat % 16)
    '\\' :: 'u' :: '0' :: '0' :: hi :: [lo]
  else [c]

/-- `JSON.stringify` rendering of a string, quotes included. -/
def serStr (s : String) : List Char :=
  '"' :: (s.toList.flatMap escChar) ++ ['"']

mutual
/-- `JSON.stringify` (no indentation argument, as the source always calls it). -/
def serJson : Json → List Char
  | .null => ['n', 'u', 'l', 'l']
  | .num z => serInt z
  | .str s => serStr s
  | .arr [] => ['[', ']']
  | .arr (v :: vs) => '[' :: serJson v ++ serTail vs ++ [']']
  | .obj [] => ['{', '}']
  | .obj (kv :: kvs) => '{' :: serField kv ++ serFieldTail kvs ++ ['}']
  | .bool true => ['t', 'r', 'u', 'e']
  | .bool false => ['f', 'a', 'l', 's', 'e']

/-- Comma-prefixed serializations of the remaining array elements. -/
def serTail : List Json → List Char
  | [] => []
  | v :: vs => ',' :: serJson v ++ serTail vs

/-- Serialization of one object field. -/
def serField : String × Json → List Char
  | (k, v) => serStr k ++ ':' :: serJson v

/-- Comma-prefixed serializations of the remaining object fields. -/
def serFieldTail : List (String × Json) → List Char
  | [] => []
  | kv :: kvs => ',' :: serField kv ++ serFieldTail kvs
end

/-- `JSON.stringify` as a string-valued function. -/
def jsonStringify (v : Json) : String := String.mk (serJson v)

/-- JSON insignificant whitespace (RFC 8259: space, tab, line feed, carriage
return). -/
def isJsonWs (c : Char) : Bool := c = ' ' || c = '\t' || c = '\n' || c = '\r'

/-- Skip insignificant whitespace. -/
def skipWs (cs : List Char) : List Char := cs.dropWhile isJsonWs

/-- Numeric value of a decimal digit character. -/
def digitVal (c : Char) : ℕ := c.toNat - 48

/-- Value of a list of decimal digit characters, most significant first. -/
def natFromDigits (ds : List Char) : ℕ := ds.foldl (fun a c => a * 10 + digitVal c) 0

/-- Parse a maximal nonempty run of decimal digits. -/
def parseDigits (cs : List Char) : Option (ℕ × List Char) :=
  let ds := cs.takeWhile Char.isDigit
  if ds.isEmpty then none
  else some (natFromDigits ds, cs.dropWhile Char.isDigit)

/-- Value of a hex digit character, if any. -/
def hexVal? (c : Char) : Option ℕ :=
  if c.isDigit then some (c.toNat - 48)
  else if 'a' ≤ c ∧ c ≤ 'f' then some (c.toNat - 87)
  else if 'A' ≤ c ∧ c ≤ 'F' then some (c.toNat - 55)
  else none

/-- The character denoted by a single-character escape, if legal. -/
def unescChar (c : Char) : Option Char :=
  if c = '"' then some '"'
  else if c = '\\' then some '\\'
  else if c = '/' then some '/'
  else if c = 'b' then some (Char.ofNat 8)
  else if c = 'f' then some (Char.ofNat 12)
  else if c = 'n' then some '\n'
  else if c = 'r' then some (Char.ofNat 13)
  else if c = 't' then some '\t'
  else none

/-- Parse the body of a JSON string (the opening quote already consumed),
returning the characters and the input after the closing quote. -/
def parseStrChars : List Char → Option (List Char × List Char)
  | [] => none
  | c :: rest =>
    if c = '"' then some ([], rest)
    else if c = '\\' then
      match rest with
      | 'u' :: h1 :: h2 :: h3 :: h4 :: r =>
        match hexVal? h1, hexVal? h2, hexVal? h3, hexVal? h4 with
        | some x1, some x2, some x3, some x4 =>
          (parseStrChars r).map
            (fun p => (Char.ofNat (((x1 * 16 + x2) * 16 + x3) * 16 + x4) :: p.1, p.2))
        | _, _, _, _ => none
      | e :: r =>
        match unescChar e with
        | some ec => (parseStrChars r).map (fun p => (ec :: p.1, p.2))
        | none => none
      | [] => none
    else (parseStrChars rest).map (fun p => (c :: p.1, p.2))

mutual
/-- Fuel-indexed JSON value parser (the model of `JSON.parse`'s grammar).
Every recursive call structurally decreases the fuel, so closed parses reduce
definitionally. -/
def parseVal : ℕ → List Char → Option (Json × List Char)
  | 0, _ => none
  | fuel + 1, cs =>
    match skipWs cs with
    | [] => none
    | c :: rest =>
      if c.isDigit then (parseDigits (c :: rest)).map (fun p => (.num (p.1 : ℤ), p.2))
      else if c = '-' then (parseDigits rest).map (fun p => (.num (-(p.1 : ℤ)), p.2))
      else if c = '"' then (parseStrChars rest).map (fun p => (.str (String.mk p.1), p.2))
      else if c = '[' then parseArrBody fuel (skipWs rest)
      else if c = '{' then parseObjBody fuel (skipWs rest)
      else if c = 'n' then
        match rest with
        | 'u' :: 'l' :: 'l' :: r => some (.null, r)
        | _ => none
      else if c = 't' then
        match rest with
        | 'r' :: 'u' :: 'e' :: r => some (.bool true, r)
        | _ => none
      else if c = 'f' then
        match rest with
        | 'a' :: 'l' :: 's' :: 'e' :: r => some (.bool false, r)
        | _ => none
      else none

/-- After `[` (and whitespace): an empty array or its element list. -/
def parseArrBody : ℕ → List Char → Option (Json × List Char)
  | 0, _ => none
  | fuel + 1, cs =>
    match cs with
    | ']' :: r => some (.arr [], r)
    | _ => (parseItems fuel cs).map (fun p => (.arr p.1, p.2))

/-- One-or-more comma-separated array elements, closed by `]`. -/
def parseItems : ℕ → List Char → Option (List Json × List Char)
  | 0, _ => none
  | fuel + 1, cs =>
    match parseVal fuel cs with
    | none => none
    | some (v, r) =>
      match skipWs r with
      | ',' :: r2 => (parseItems fuel r2).map (fun p => (v :: p.1, p.2))
      | ']' :: r2 => some ([v], r2)
      | _ => none

/-- After `{` (and whitespace): an empty object or its field list. -/
def parseObjBody : ℕ → List Char → Option (Json × List Char)
  | 0, _ => none
  | fuel + 1, cs =>
    match cs with
    | '}' :: r => some (.obj [], r)
    | _ => (parseFields fuel cs).map (fun p => (.obj p.1, p.2))

/-- One-or-more comma-separated `"key": value` fields, closed by `}`. -/
def parseFields : ℕ → List Char → Option (List (String × Json) × List Char)
  | 0, _ => none
  | fuel + 1, cs =>
    match skipWs cs with
    | '"' :: rest =>
      match parseStrChars rest with
      | none => none
      | some (kcs, r) =>
        match skipWs r with
        | ':' :: r2 =>
          match parseVal fuel r2 with
          | none => none
          | some (v, r3) =>
            match skipWs r3 with
            | ',' :: r4 => (parseFields fuel r4).map (fun p => ((String.mk kcs, v) :: p.1, p.2))
            | '}' :: r4 => some ([(String.mk kcs, v)], r4)
            | _ => none
        | _ => none
    | _ => none
end

/-- The model of `JSON.parse`: parse one value and insist nothing but
whitespace follows; `none` models a thrown `SyntaxError`.  The fuel
`2 * length + 2` dominates the recursion depth of any parse (proved
sufficient for every serialized value below). -/
def parseJsonText (cs : List Char) : Option Json :=
  match parseVal (2 * cs.length + 2) cs with
  | some (v, r) => if skipWs r = [] then some v else none
  | none => none

/-! ### Round-trip lemmas: parsing what the serializer wrote -/

/-- Head character of a character list, digit test. -/
def headIsDigit (cs : List Char) : Bool :=
  match cs with
  | [] => false
  | c :: _ => c.isDigit

mutual
/-- Fuel bound for parsing a serialized value. -/
def sizeJ : Json → ℕ
  | .null => 1
  | .bool _ => 1
  | .num _ => 1
  | .str _ => 1
  | .arr vs => 2 + sizeItems vs
  | .obj kvs => 2 + sizeFields kvs

/-- Fuel bound for parsing a serialized element list. -/
def sizeItems : List Json → ℕ
  | [] => 1
  | v :: vs => 1 + sizeJ v + sizeItems vs

/-- Fuel bound for parsing a serialized field list. -/
def sizeFields : List (String × Json) → ℕ
  | [] => 1
  | kv :: kvs => 1 + sizeJ kv.2 + sizeFields kvs
end

/-! ### `safeParseJson` (the Resilient JSON Extractor, src/unnamed/part_001
lines 130-175) -/

/-- Whitespace removed by JavaScript `String.prototype.trim` (ASCII subset;
Unicode spaces, NBSP and BOM are outside the model). -/
def isTrimWs (c : Char) : Bool :=
  c = ' ' || c = '\t' || c = '\n' || c = '\r' || c = Char.ofNat 11 || c = Char.ofNat 12

/-- `text.trim()` on a character list. -/
def jsTrim (cs : List Char) : List Char :=
  ((cs.dropWhile isTrimWs).reverse.dropWhile isTrimWs).reverse

/-- `JSON.parse` as a throwing operation: `.error` models the `SyntaxError`
that a `try/catch` in the source intercepts. -/
def jsonParseExn (cs : List Char) : Except String Json :=
  match parseJsonText cs with
  | some v => .ok v
  | none => .error "SyntaxError"

/-- `text.indexOf(c)` (as an index option rather than `-1`). -/
def findFirstIdx (p : Char → Bool) : List Char → Option ℕ
  | [] => none
  | c :: rest => if p c then some 0 else (findFirstIdx p rest).map (fun i => i + 1)

/-- `text.lastIndexOf(c)`. -/
def lastIdxOf (c : Char) (cs : List Char) : Option ℕ :=
  (findFirstIdx (fun x => x = c) cs.reverse).map (fun i => cs.length - 1 - i)

/-- One bracket-slice salvage stage of `safeParseJson`: locate the first
`openC` and the last `closeC`, and if the first is strictly before the last,
try to parse the inclusive slice (the `try`'s `catch` falls through to
`none`). -/
def sliceStage (openC closeC : Char) (cs : List Char) : Option Json :=
  match findFirstIdx (fun c => c = openC) cs, lastIdxOf closeC cs with
  | some first, some last =>
    if first < last then
      match jsonParseExn ((cs.drop first).take (last + 1 - first)) with
      | .ok v => some v
      | .error _ => none
    else none
  | _, _ => none

/-- `text.split(/\n+/)` up to the empty segments that the subsequent
`filter(Boolean)` removes: splitting on every single newline produces the same
nonempty trimmed segments as splitting on newline runs. -/
def splitNl : List Char → List (List Char)
  | [] => [[]]
  | c :: rest =>
    if c = '\n' then [] :: splitNl rest
    else
      match splitNl rest with
      | s :: ss => (c :: s) :: ss
      | [] => [[c]]

/-- The last-resort stage: split into lines, trim, drop empties, and parse
each line individually falling back to the raw (trimmed) line string. -/
def lineValues (cs : List Char) : List Json :=
  (((splitNl cs).map jsTrim).filter (fun l => !l.isEmpty)).map
    (fun l =>
      match jsonParseExn l with
      | .ok v => v
      | .error _ => .str (String.mk l))

/-- `safeParseJson` over a character list, with every internal `try/catch`
explicit.  JavaScript `null` (both the early return and a parsed JSON `null`)
is `Json.null`; the result being `Except.ok` in every branch is exactly the
claim that no exception escapes. -/
def safeParseCore (cs : List Char) : Except String Json :=
  if cs = [] then .ok .null
  else
    match jsonParseExn (jsTrim cs) with
    | .ok v => .ok v
    | .error _ =>
      match sliceStage '{' '}' cs with
      | some v => .ok v
      | none =>
        match sliceStage '[' ']' cs with
        | some v => .ok v
        | none =>
          let parsedLines := lineValues cs
          if parsedLines.isEmpty then .ok .null else .ok (.arr parsedLines)

/-- `safeParseJson` (src/unnamed/part_001 lines 130-175). -/
def safeParseJson (text : String) : Json :=
  match safeParseCore text.toList with
  | .ok v => v
  | .error _ => .null

/-! ### Stage analysis of `safeParseJson` (claim C10) -/

/-! ### JavaScript value utilities for the structural normalizers -/

/-- JavaScript truthiness of a JSON value (`NaN` is outside the model). -/
def jsTruthyJ : Json → Bool
  | .null => false
  | .bool b => b
  | .num n => !(n == 0)
  | .str s => !s.isEmpty
  | .arr _ => true
  | .obj _ => true

/-- `Array.isArray`. -/
def isArrayJ : Json → Bool
  | .arr _ => true
  | _ => false

/-- `typeof x === "object"` (arrays, plain objects and `null`). -/
def typeofObject : Json → Bool
  | .arr _ => true
  | .obj _ => true
  | .null => true
  | _ => false

/-- Property read `x.k`: `none` models `undefined` (including reads on
primitives); a read on `null`/`undefined` would throw and is guarded at every
call site of the source. -/
def jsGet (j : Json) (k : String) : Option Json :=
  match j with
  | .obj kvs => (kvs.find? (fun kv => kv.1 == k)).map (fun kv => kv.2)
  | _ => none

/-- Replace the binding of `k` (keeping its slot) or append it. -/
def setField : List (String × Json) → String → Json → List (String × Json)
  | [], k, v => [(k, v)]
  | (k2, v2) :: rest, k, v =>
    if k2 == k then (k2, v) :: rest else (k2, v2) :: setField rest k v

/-- Property write `x.k = v` on an object; on an array the write would attach
a non-index property invisible to this model, and no modelled call site reads
such a property back, so the model leaves the value unchanged. -/
def jsSet (j : Json) (k : String) (v : Json) : Json :=
  match j with
  | .obj kvs => .obj (setField kvs k v)
  | _ => j

mutual
/-- JavaScript `String(x)` conversion. -/
def jsToStr : Json → String
  | .null => "null"
  | .bool true => "true"
  | .bool false => "false"
  | .num n => String.mk (serInt n)
  | .str s => s
  | .arr xs => jsArrStr xs
  | .obj _ => "[object Object]"

/-- `Array.prototype.toString`: elements joined with commas, `null` elements
rendering empty. -/
def jsArrStr : List Json → String
  | [] => ""
  | [x] => match x with | .null => "" | v => jsToStr v
  | x :: xs => (match x with | .null => "" | v => jsToStr v) ++ "," ++ jsArrStr xs
end

/-- The fixed Japanese fiscal-year month labels (April through March). -/
def defaultMonthTitles : List String :=
  ["4月", "5月", "6月", "7月", "8月", "9月", "10月", "11月", "12月", "1月", "2月", "3月"]

/-- The month-title list used by `ensureYearMonths`: a top-level `months`
array (stringified) or the fiscal-year default. -/
def monthTitlesOf (parsed : Json) : List String :=
  match jsGet parsed "months" with
  | some (.arr ms) => ms.map jsToStr
  | _ => defaultMonthTitles

/-- First mutation of a month-entry object: `if (!Array.isArray(m.items)) m.items = []`. -/
def ensureItemsField (m : Json) : Json :=
  match jsGet m "items" with
  | some v => if isArrayJ v then m else jsSet m "items" (.arr [])
  | none => jsSet m "items" (.arr [])

/-- Second mutation: `if (!m.title) m.title = String(m.title || "")` (always `""`:
a falsy title makes the inner `||` fall through to the empty string). -/
def ensureTitleField (m1 : Json) : Json :=
  match jsGet m1 "title" with
  | some t => if jsTruthyJ t then m1 else jsSet m1 "title" (.str "")
  | none => jsSet m1 "title" (.str "")

/-- One month entry normalized by `ensureYearMonths`: non-objects become
`{title: String(m || ""), items: []}`; objects get an `items` array backfilled
and a falsy `title` replaced by `""`. -/
def normalizeMonthEntry (m : Json) : Json :=
  if !jsTruthyJ m || !typeofObject m then
    .obj [("title", .str (if jsTruthyJ m then jsToStr m else "")), ("items", .arr [])]
  else ensureTitleField (ensureItemsField m)

/-- One year entry under `ensureYearMonths`: non-objects pass through; a year
whose `months` is not a non-empty array gets the synthesized 12 title buckets;
otherwise each existing month entry is normalized in place. -/
def ensureYearEntry (monthTitles : List String) (y : Json) : Json :=
  if !jsTruthyJ y || !typeofObject y then y
  else
    match jsGet y "months" with
    | some (.arr ms) =>
      if ms.length = 0 then
        jsSet y "months" (.arr (monthTitles.map (fun t =>
          .obj [("title", .str t), ("items", .arr [])])))
      else jsSet y "months" (.arr (ms.map normalizeMonthEntry))
    | _ =>
      jsSet y "months" (.arr (monthTitles.map (fun t =>
        .obj [("title", .str t), ("items", .arr [])])))

/-- `ensureYearMonths` (src/unnamed/part_001 lines 456-492). -/
def ensureYearMonths (parsed : Json) : Json :=
  if !jsTruthyJ parsed then parsed
  else
    match jsGet parsed "years" with
    | some (.arr ys) =>
      jsSet parsed "years" (.arr (ys.map (ensureYearEntry (monthTitlesOf parsed))))
    | _ => parsed

/-! ### Bulk journal-entry generation (C6): `chunkArray`, the JE branch of
`generateBulkDocuments` and `generateFallbackJESections` -/

/-- Auxiliary recursion for `chunkArray`; the fuel (instantiated with the list
length, an upper bound on the number of slices) makes the recursion structural. -/
def chunkArrayAux {α : Type} : ℕ → List α → ℕ → List (List α)
  | 0, _, _ => []
  | _, [], _ => []
  | fuel + 1, a :: rest, size =>
    (a :: rest).take size :: chunkArrayAux fuel ((a :: rest).drop size) size

/-- `chunkArray` (src/unnamed/part_001 lines 123-127); the source loop would
not terminate for `size = 0`, a case its callers exclude (`Number(..) || 10`). -/
def chunkArray {α : Type} (arr : List α) (size : ℕ) : List (List α) :=
  if size = 0 then [] else chunkArrayAux arr.length arr size

/-- `a || b` where `a` is a possibly-undefined property value. -/
def jsOrUndef (a : Option Json) (b : Json) : Json :=
  match a with
  | some v => if jsTruthyJ v then v else b
  | none => b

/-- `Number(s)` for a string, on the model's string shapes: whitespace-only is
`0`, a decimal digit run is its value, anything else is `NaN` (`none`). -/
def jsStrToNumber (s : String) : Option ℚ :=
  let t := jsTrim s.toList
  if t = [] then some 0
  else if t.all Char.isDigit then some ((natFromDigits t : ℕ) : ℚ)
  else none

/-- `Number(v)` for a JSON value (`none` = `NaN`); arrays coerce through their
string form, plain objects to `NaN`. -/
def jsToNumber : Json → Option ℚ
  | .null => some 0
  | .bool b => some (if b then 1 else 0)
  | .num n => some ((n : ℤ) : ℚ)
  | .str s => jsStrToNumber s
  | .arr xs => jsStrToNumber (jsArrStr xs)
  | .obj _ => none

/-- One journal line of a JE document (date/account/label keep their raw JSON
values; amounts are the `Number(..) || 0` coercions). -/
structure JEItem where
  date : Json
  account : Json
  debit : ℚ
  credit : ℚ
  label : Json

/-- One month section of a JE document. -/
structure JESection where
  title : Json
  breakPage : Bool
  headers : List String
  items : List JEItem

/-- One generated JE document. -/
structure JEDoc where
  id : String
  type : DocumentType
  year : Json
  title : String
  sections : List JESection

/-- The fixed JE table headers. -/
def jeHeaders : List String := ["日付", "借方", "金額", "貸方", "金額", "摘要"]

/-- One raw item mapped to a journal line; property access on `null` throws
(`.error`), reaching the chunk-level catch. -/
def jeItemOfJson (it : Json) : Except Unit JEItem :=
  match it with
  | .null => .error ()
  | _ => .ok
      { date := jsOrUndef (jsGet it "date") (.str "")
        account := jsOrUndef (jsGet it "account") (.str "")
        debit :=
          match jsGet it "debit" with
          | some v => (jsToNumber v).getD 0
          | none => 0
        credit :=
          match jsGet it "credit" with
          | some v => (jsToNumber v).getD 0
          | none => 0
        label := jsOrUndef (jsGet it "label") (.str "") }

/-- One raw month mapped to a section; `null` month entries and a truthy
non-array `items` value (on which `.map` would throw) raise. -/
def jeSectionOfJson (m : Json) : Except Unit JESection :=
  match m with
  | .null => .error ()
  | _ =>
    match jsOrUndef (jsGet m "items") (.arr []) with
    | .arr its => do
        let items ← its.mapM jeItemOfJson
        .ok { title := jsOrUndef (jsGet m "title") (.str "")
              breakPage := false
              headers := jeHeaders
              items := items }
    | _ => .error ()

/-- One raw year entry of the parsed response: `.ok none` models `continue`
(falsy `y.year` or non-array `y.months`); `.error` a thrown access on `null`. -/
def jeDocOfYear (y : Json) : Except Unit (Option JEDoc) :=
  match y with
  | .null => .error ()
  | _ =>
    match jsGet y "year" with
    | some yv =>
      if !jsTruthyJ yv then .ok none
      else
        match jsGet y "months" with
        | some (.arr ms) => do
            let sections ← ms.mapM jeSectionOfJson
            .ok (some
              { id := docTypeCode .JE ++ "-" ++ jsToStr yv
                type := .JE
                year := yv
                title := "仕訳帳 " ++ jsToStr yv ++ "年3月期"
                sections := sections })
        | _ => .ok none
    | none => .ok none

/-- The `for (const y of parsed.years)` loop: documents pushed before a throw
survive; the Boolean records whether the loop threw. -/
def jeLoop : List Json → List JEDoc × Bool
  | [] => ([], false)
  | y :: rest =>
    match jeDocOfYear y with
    | .error _ => ([], true)
    | .ok none => jeLoop rest
    | .ok (some d) =>
      let (ds, f) := jeLoop rest
      (d :: ds, f)

/-- `parsed?.years && Array.isArray(parsed.years)`: the years list when the
check passes (arrays are truthy, so the conjunction reduces to `Array.isArray`). -/
def yearsOfParsed (parsed : Json) : Option (List Json) :=
  match parsed with
  | .null => none
  | p =>
    match jsGet p "years" with
    | some (.arr ys) => some ys
    | _ => none

/-- `JSON.parse(response.text?.trim() || "{}")` with the `catch` falling back
to `safeParseJson(response.text || "")`. -/
def parseBulkResponse (text : Option String) : Json :=
  let trimmed : List Char :=
    match text with
    | some s => jsTrim s.toList
    | none => []
  let raw : List Char := if trimmed = [] then "{}".toList else trimmed
  match jsonParseExn raw with
  | .ok j => j
  | .error _ =>
    safeParseJson (match text with | some s => s | none => "")

/-- The month labels of `generateFallbackJESections` (April through March). -/
def jeMonthNames : List String :=
  ["4月", "5月", "6月", "7月", "8月", "9月", "10月", "11月", "12月", "1月", "2月", "3月"]

/-- `generateFallbackJESections` (src/unnamed/part_001 lines 1432-1472):
`yearData.revenue || 100` falls back only on `0` (`revenue` is a number in the
model, so `NaN`/`undefined` do not arise). -/
def fallbackMonthlyRevenue (yearData : YearlyData) : ℚ :=
  ((jsRound ((if yearData.revenue = 0 then 100 else yearData.revenue)
    * 1000000 / 12) : ℤ) : ℚ)

def generateFallbackJESections (yearData : YearlyData) : List JESection :=
  let monthlyRevenue : ℚ := fallbackMonthlyRevenue yearData
  jeMonthNames.map (fun title =>
    { title := .str title
      breakPage := false
      headers := jeHeaders
      items :=
        [ { date := .str "月末", account := .str "売掛金", debit := monthlyRevenue,
            credit := 0, label := .str "月次売上" },
          { date := .str "月末", account := .str "売上", debit := 0,
            credit := monthlyRevenue, label := .str "月次売上計上" } ] })

/-- One fallback placeholder document for a failed chunk's year. -/
def fallbackJEDoc (y : YearlyData) : JEDoc :=
  { id := docTypeCode .JE ++ "-" ++ String.mk (serInt y.year)
    type := .JE
    year := .num y.year
    title := "仕訳帳 " ++ String.mk (serInt y.year) ++ "年3月期 (生成失敗)"
    sections := generateFallbackJESections y }

/-- The `try/catch` body for one chunk: on an invalid structure (throw) or a
mid-loop throw, the catch appends one fallback document per chunk year after
whatever the loop already pushed. -/
def processJEChunk (chunk : List YearlyData) (text : Option String) : List JEDoc :=
  let parsed := parseBulkResponse text
  match yearsOfParsed parsed with
  | some ys =>
    let (docs, failed) := jeLoop ys
    if failed then docs ++ chunk.map fallbackJEDoc else docs
  | none => chunk.map fallbackJEDoc

/-- The JE branch of `generateBulkDocuments` (src/unnamed/part_001 lines
1146-1279), with the awaited LLM text for each chunk supplied by `respond`. -/
def generateBulkJE (history : List YearlyData) (chunkSize : ℕ)
    (respond : List YearlyData → Option String) : List JEDoc :=
  ((chunkArray history chunkSize).map
    (fun chunk => processJEChunk chunk (respond chunk))).join

/-- Concrete C6 scenario: three input years with revenue 120 (million yen). -/
def c6y2020 : YearlyData :=
  { year := 2020, revenue := 120, operatingProfit := 10, cashFlow := 5,
    employees := 10, marketContext := "", companyEvent := "", financials := none }

def c6y2021 : YearlyData := { c6y2020 with year := 2021 }

def c6y2022 : YearlyData := { c6y2020 with year := 2022 }

def c6History : List YearlyData := [c6y2020, c6y2021, c6y2022]

/-- A well-formed response for the second chunk. -/
def c6GoodText : String :=
  "\x7b\"years\":[\x7b\"year\":2022,\"months\":[\x7b\"title\":\"4月\",\"items\":[]\x7d]\x7d]\x7d"

/-- The responder: the first chunk gets the unparseable string, the second the
well-formed one. -/
def c6Respond (chunk : List YearlyData) : Option String :=
  if chunk.map (fun y => y.year) = [2020, 2021] then some "not json"
  else some c6GoodText

/-- Concrete input refuting C3: one year whose `months` array holds a single
well-formed bucket. -/
def parsedC3 : Json :=
  .obj [("years", .arr [ .obj [("year", .num 2020),
    ("months", .arr [ .obj [("title", .str "4月"), ("items", .arr [])] ])] ])]

/-- The list of month buckets of the first year entry. -/
def monthsOfYear0 (parsed : Json) : Option (List Json) :=
  match jsGet parsed "years" with
  | some (.arr (y :: _)) =>
    match jsGet y "months" with
    | some (.arr ms) => some ms
    | _ => none
  | _ => none

/-! ### Newsletter normalization (C7): the guards and the alternating
`[year, content, year, content, ...]` branch of `normalizeNewsletters`
(src/unnamed/part_001 lines 178-211) -/

/-- `/^\d{4}$/.test(s)`: exactly four decimal digits. -/
def isFourDigits (s : String) : Bool :=
  s.toList.length == 4 && s.toList.all Char.isDigit

/-- The even-index test: `typeof el === "number" || (typeof el === "string" && /^\d{4}$/.test(el))`. -/
def isYearMarker (el : Json) : Bool :=
  match el with
  | .num _ => true
  | .str s => isFourDigits s
  | _ => false

/-- The odd-index test: `typeof el === "string"`. -/
def isContentStr (el : Json) : Bool :=
  match el with
  | .str _ => true
  | _ => false

/-- `items.every((el, idx) => idx % 2 === 0 ? isYearMarker : isContentStr)`. -/
def alternatingFrom : ℕ → List Json → Bool
  | _, [] => true
  | idx, el :: rest =>
    (if idx % 2 = 0 then isYearMarker el else isContentStr el)
      && alternatingFrom (idx + 1) rest

/-- `isAlternatingYearContent` (the leading `Array.isArray(items)` holds at
this point by the earlier guard). -/
def isAlternatingYearContent (items : List Json) : Bool :=
  decide (2 ≤ items.length) && alternatingFrom 0 items

/-- One output pair of the alternating branch (`year` is a number in the
source; `none` would be `NaN`, unreachable under the alternating check). -/
structure NewsPair where
  year : JSNum
  content : String
deriving DecidableEq

/-- One iteration of the pairing loop: the year marker kept when it is a
number, else `Number(String(rawYear).trim())` (`jsStrToNumber` trims); the
content `String(items[i+1] || "").trim()`. -/
def pairOf (rawYear : Json) (next : Option Json) : NewsPair :=
  { year :=
      match rawYear with
      | .num n => some ((n : ℤ) : ℚ)
      | v => jsStrToNumber (jsToStr v)
    content := String.mk (jsTrim (jsToStr (jsOrUndef next (.str ""))).toList) }

/-- The `for (let i = 0; i < items.length; i += 2)` pairing loop. -/
def pairLoop : List Json → List NewsPair
  | [] => []
  | [rawYear] => [pairOf rawYear none]
  | rawYear :: c :: rest => pairOf rawYear (some c) :: pairLoop rest

/-- Outcome of `normalizeNewsletters`: an early return, the alternating branch
(the parsed value with its `newsletters` replaced by the pairs), or control
reaching the later embedded-JSON/primitive-array heuristics, which no claim of
this development touches. -/
inductive NNResult where
  | done : Json → NNResult
  | alt : Json → List NewsPair → NNResult
  | heuristic : NNResult

/-- `normalizeNewsletters` (src/unnamed/part_001 lines 178-211): the guards and
the alternating branch, translated from the source; the heuristics that follow
the alternating branch are represented by the opaque `heuristic` outcome. -/
def normalizeNewsletters (parsed : Json) : NNResult :=
  if !jsTruthyJ parsed then .done (ensureYearMonths parsed)
  else
    match jsGet parsed "newsletters" with
    | none => .done parsed
    | some nl =>
      if !jsTruthyJ nl then .done parsed
      else
        match nl with
        | .arr items =>
          if isAlternatingYearContent items then .alt parsed (pairLoop items)
          else .heuristic
        | _ => .done parsed

/-- The C7 inputs: the claim's own scenario, and one whose content string
carries surrounding whitespace. -/
def c7Good : Json :=
  .obj [("newsletters", .arr [.num 2020, .str "text A", .num 2021, .str "text B"])]

def c7Pad : Json :=
  .obj [("newsletters", .arr [.num 2020, .str " text A "])]

/-- Spec section 8 scenario: cash 100, everything else 0, capital stock 50;
after reconciliation the totals are forced and retained earnings is the plug. -/
theorem sanity_reconcile_scenario :
    (reconcileFinancials finSampleBS).totalAssets = some 100 ∧
    (reconcileFinancials finSampleBS).totalLiabilities = some 0 ∧
    (reconcileFinancials finSampleBS).totalNetAssets = some 100 ∧
    (reconcileFinancials finSampleBS).netAssets.retainedEarnings = some 50 := by
  refine ⟨?_, ?_, ?_, ?_⟩ <;>
    norm_num [reconcileFinancials, finSampleBS, finNone, currentAssetsSum, fixedAssetsSum,
      currentLiabilitiesSum, fixedLiabilitiesSum, jsCoerce0, jsOr2, jsTruthy, jsSub]

/-- Any `normalizeYear` output with a financials block got it from reconciling
the input's financials block. -/
theorem normalizeYear_financials_eq (y : YearlyData) (g : DetailedFinancials)
    (h : (normalizeYear y).financials = some g) :
    ∃ f, y.financials = some f ∧ g = reconcileFinancials f := by
  obtain ⟨yr, rev, op, cf, emp, mc, ce, fin⟩ := y
  cases fin with
  | none => simp [normalizeYear] at h
  | some f =>
    refine ⟨f, rfl, ?_⟩
    simpa [normalizeYear] using h.symm

/-- C1: for every `DetailedFinancials` record returned by the reconciliation
pass (`normalizeYear`), `totalAssets` is the sum of the `currentAssets`
sub-fields plus the sum of the `fixedAssets` sub-fields, `totalLiabilities` is
the sum of the `currentLiabilities` sub-fields plus the sum of the
`fixedLiabilities` sub-fields, `totalNetAssets = totalAssets -
totalLiabilities`, and `netAssets.retainedEarnings = totalNetAssets -
netAssets.capitalStock - netAssets.other`, for arbitrary (including
deliberately inconsistent) input sub-field values. -/
theorem c1_balance_invariant (y : YearlyData) (g : DetailedFinancials)
    (h : (normalizeYear y).financials = some g) :
    g.totalAssets = some (currentAssetsSum g.currentAssets + fixedAssetsSum g.fixedAssets) ∧
    g.totalLiabilities =
      some (currentLiabilitiesSum g.currentLiabilities + fixedLiabilitiesSum g.fixedLiabilities) ∧
    g.totalNetAssets = some (jsCoerce0 g.totalAssets - jsCoerce0 g.totalLiabilities) ∧
    g.netAssets.retainedEarnings =
      some (jsCoerce0 g.totalNetAssets - jsCoerce0 g.netAssets.capitalStock -
        jsCoerce0 g.netAssets.other) := by
  obtain ⟨f, hf, rfl⟩ := normalizeYear_financials_eq y g h
  exact ⟨rfl, rfl, rfl, rfl⟩

/-- C1 witness: the balance invariant evaluated on the deliberately
inconsistent sample record. -/
theorem c1_balance_invariant_witness :
    (normalizeYear (yearOf finSampleBS)).financials = some (reconcileFinancials finSampleBS) ∧
    ((reconcileFinancials finSampleBS).totalAssets =
      some (currentAssetsSum (reconcileFinancials finSampleBS).currentAssets +
        fixedAssetsSum (reconcileFinancials finSampleBS).fixedAssets) ∧
    (reconcileFinancials finSampleBS).totalLiabilities =
      some (currentLiabilitiesSum (reconcileFinancials finSampleBS).currentLiabilities +
        fixedLiabilitiesSum (reconcileFinancials finSampleBS).fixedLiabilities) ∧
    (reconcileFinancials finSampleBS).totalNetAssets =
      some (jsCoerce0 (reconcileFinancials finSampleBS).totalAssets -
        jsCoerce0 (reconcileFinancials finSampleBS).totalLiabilities) ∧
    (reconcileFinancials finSampleBS).netAssets.retainedEarnings =
      some (jsCoerce0 (reconcileFinancials finSampleBS).totalNetAssets -
        jsCoerce0 (reconcileFinancials finSampleBS).netAssets.capitalStock -
        jsCoerce0 (reconcileFinancials finSampleBS).netAssets.other)) :=
  ⟨rfl, c1_balance_invariant (yearOf finSampleBS) (reconcileFinancials finSampleBS) rfl⟩

/-- C2 counterexample: a record whose `sales`, `cogs` and `sga` are numeric but
whose reconciled `grossProfit` is `7`, not `sales - cogs = 0`: the claimed
identity fails because `Number(f.sales - f.cogs || f.grossProfit || 0)` falls
back to the supplied value when the difference is zero. -/
theorem c2_pl_chain_counterexample :
    (yearOf finGpCex).financials = some finGpCex ∧
    finGpCex.sales = some 5 ∧ finGpCex.cogs = some 5 ∧ finGpCex.sga = some 1 ∧
    (normalizeYear (yearOf finGpCex)).financials.map DetailedFinancials.grossProfit =
      some (some 7) ∧
    ((5 : ℚ) - 5) ≠ 7 := by
  refine ⟨rfl, rfl, rfl, rfl, ?_, by norm_num⟩
  norm_num [normalizeYear, yearOf, reconcileFinancials, finGpCex, finNone, jsOr2, jsTruthy,
    jsSub, jsCoerce0]

/-- C2 amended: whenever `sales`, `cogs` and `sga` are numeric AND the
differences `sales - cogs` and `sales - cogs - sga` are nonzero, the
reconciliation output satisfies `grossProfit = sales - cogs` and
`operatingProfit = grossProfit - sga`; when a difference is zero the code
instead falls back to the supplied value (or 0). -/
theorem c2_pl_chain_amended (y : YearlyData) (f g : DetailedFinancials)
    (hf : y.financials = some f) (h : (normalizeYear y).financials = some g)
    (s c a : ℚ) (hs : f.sales = some s) (hc : f.cogs = some c) (ha : f.sga = some a)
    (h1 : s - c ≠ 0) (h2 : s - c - a ≠ 0) :
    g.grossProfit = some (s - c) ∧ g.operatingProfit = some (s - c - a) := by
  obtain ⟨f2, hf2, rfl⟩ := normalizeYear_financials_eq y g h
  rw [hf] at hf2
  injection hf2 with e
  subst e
  constructor
  · simp [reconcileFinancials, jsOr2, jsTruthy, jsSub, hs, hc, h1]
  · simp [reconcileFinancials, jsOr2, jsTruthy, jsSub, hs, hc, ha, h1, h2]

/-- C2 amended witness: the amended P&L chain evaluated at sales 10, cogs 4,
sga 2. -/
theorem c2_pl_chain_amended_witness :
    (reconcileFinancials finPl).grossProfit = some ((10 : ℚ) - 4) ∧
    (reconcileFinancials finPl).operatingProfit = some ((10 : ℚ) - 4 - 2) :=
  c2_pl_chain_amended (yearOf finPl) finPl (reconcileFinancials finPl) rfl rfl 10 4 2
    rfl rfl rfl (by norm_num) (by norm_num)

/-- C8: when `cashAtBeginning`, `operatingCF`, `investingCF` and `financingCF`
are all numeric, the reconciled `cashAtEnd` is their sum; when any of the four
is not numeric, `cashAtEnd` is left at its supplied value. -/
theorem c8_cash_at_end (y : YearlyData) (f g : DetailedFinancials)
    (hf : y.financials = some f) (h : (normalizeYear y).financials = some g) :
    (∀ b o i fi : ℚ, f.cashAtBeginning = some b → f.operatingCF = some o →
      f.investingCF = some i → f.financingCF = some fi →
      g.cashAtEnd = some (b + o + i + fi)) ∧
    ((f.cashAtBeginning = none ∨ f.operatingCF = none ∨ f.investingCF = none ∨
      f.financingCF = none) → g.cashAtEnd = f.cashAtEnd) := by
  obtain ⟨f2, hf2, rfl⟩ := normalizeYear_financials_eq y g h
  rw [hf] at hf2
  injection hf2 with e
  subst e
  constructor
  · intro b o i fi hb ho hi hfi
    simp [reconcileFinancials, hb, ho, hi, hfi]
  · intro hnone
    rcases hnone with hn | hn | hn | hn <;> simp [reconcileFinancials, hn]

/-- C8 witness: ending cash recomputed from the four numeric components
(ignoring the inconsistent supplied value 999). -/
theorem c8_cash_at_end_witness :
    (reconcileFinancials finCf).cashAtEnd = some ((100 : ℚ) + 30 + (-20) + 5) :=
  (c8_cash_at_end (yearOf finCf) finCf (reconcileFinancials finCf) rfl rfl).1
    100 30 (-20) 5 rfl rfl rfl rfl

/-- C9 counterexample: on a record whose stored `totalLiabilities` (999) is
inconsistent with its current-liability sub-fields (sum 10), the rendered
current-liabilities subtotal row is `totalLiabilities - sum(fixedLiabilities)
= 999`, not the literal sum 10 of the current-liability sub-fields — so the
claim that every interior subtotal is a literal sub-field sum independent of
the stored totals is false. -/
theorem c9_bs_subtotal_counterexample :
    (∃ d, generateLocalFinancialDocuments (yearOf finC9) DocumentType.BS = .ok d ∧
      itemAt d 1 5 = some ⟨"流動負債合計", .vnum (some 999), true, 1⟩) ∧
    currentLiabilitiesSum finC9.currentLiabilities = 10 ∧ (999 : ℚ) ≠ 10 := by
  refine ⟨⟨_, rfl, ?_⟩, ?_, by norm_num⟩
  · norm_num [generateLocalFinancialDocuments, itemAt, yearOf, finC9, finNone, jsSub, jsSumList,
      jsAdd]
  · norm_num [currentLiabilitiesSum, finC9, finNone, jsCoerce0]

/-- C9 amended: in the BS document rendered by
`generateLocalFinancialDocuments`, the current-assets, fixed-assets and
fixed-liabilities subtotal rows are literal reduce-sums of the corresponding
input sub-fields (independent of the stored totals), but the
current-liabilities subtotal row is the stored `totalLiabilities` minus the
fixed-liabilities sum, so it does depend on the stored total. -/
theorem c9_bs_subtotals_amended (y : YearlyData) (f : DetailedFinancials)
    (hf : y.financials = some f) (d : StmtDocument)
    (hd : generateLocalFinancialDocuments y DocumentType.BS = .ok d) :
    itemAt d 0 6 = some ⟨"流動資産合計",
      .vnum (jsSumList [f.currentAssets.cash, f.currentAssets.notesReceivable,
        f.currentAssets.accountsReceivable, f.currentAssets.inventory,
        f.currentAssets.other]), true, 1⟩ ∧
    itemAt d 0 11 = some ⟨"固定資産合計",
      .vnum (jsSumList [f.fixedAssets.tangible, f.fixedAssets.intangible,
        f.fixedAssets.investments]), true, 1⟩ ∧
    itemAt d 1 9 = some ⟨"固定負債合計",
      .vnum (jsSumList [f.fixedLiabilities.longTermDebt, f.fixedLiabilities.other]), true, 1⟩ ∧
    itemAt d 1 5 = some ⟨"流動負債合計",
      .vnum (jsSub f.totalLiabilities
        (jsSumList [f.fixedLiabilities.longTermDebt, f.fixedLiabilities.other])), true, 1⟩ := by
  rw [generateLocalFinancialDocuments, hf] at hd
  simp only [Except.ok.injEq] at hd
  subst hd
  exact ⟨rfl, rfl, rfl, rfl⟩

/-- C9 amended witness: the four subtotal rows evaluated on the inconsistent
sample record. -/
theorem c9_bs_subtotals_amended_witness :
    itemAt ((generateLocalFinancialDocuments (yearOf finC9) DocumentType.BS).toOption.getD
      ⟨"", DocumentType.BS, 0, "", []⟩) 1 5 = some ⟨"流動負債合計",
      .vnum (jsSub finC9.totalLiabilities
        (jsSumList [finC9.fixedLiabilities.longTermDebt, finC9.fixedLiabilities.other])),
      true, 1⟩ :=
  (c9_bs_subtotals_amended (yearOf finC9) finC9 rfl _ rfl).2.2.2

theorem digitChar_isDigit (n : ℕ) : (digitChar n).isDigit = true := by
  unfold digitChar
  split <;> decide

theorem digitVal_digitChar (n : ℕ) (h : n < 10) : digitVal (digitChar n) = n := by
  interval_cases n <;> decide

theorem serNatAux_ne_nil (fuel n : ℕ) : serNatAux (fuel + 1) n ≠ [] := by
  rw [serNatAux]
  split <;> simp

theorem serNatAux_all_digits (fuel : ℕ) :
    ∀ n, ∀ c ∈ serNatAux fuel n, c.isDigit = true := by
  induction fuel with
  | zero => intro n c hc; simp [serNatAux] at hc
  | succ f ih =>
    intro n c hc
    rw [serNatAux] at hc
    split at hc
    · rw [List.mem_singleton] at hc
      subst hc
      exact digitChar_isDigit n
    · rw [List.mem_append] at hc
      rcases hc with hc | hc
      · exact ih (n / 10) c hc
      · rw [List.mem_singleton] at hc
        subst hc
        exact digitChar_isDigit (n % 10)

theorem serNat_ne_nil (n : ℕ) : serNat n ≠ [] := serNatAux_ne_nil n n

theorem serNat_all_digits (n : ℕ) : ∀ c ∈ serNat n, c.isDigit = true :=
  serNatAux_all_digits (n + 1) n

theorem natFromDigits_append_one (l : List Char) (c : Char) :
    natFromDigits (l ++ [c]) = 10 * natFromDigits l + digitVal c := by
  unfold natFromDigits
  rw [List.foldl_append]
  simp [Nat.mul_comm]

theorem natFromDigits_serNatAux (fuel : ℕ) :
    ∀ n, n ≤ fuel → natFromDigits (serNatAux (fuel + 1) n) = n := by
  induction fuel with
  | zero =>
    intro n hn
    interval_cases n
    decide
  | succ f ih =>
    intro n hn
    rw [serNatAux]
    split
    · rename_i h
      simp [natFromDigits, digitVal_digitChar n h]
    · rename_i h
      rw [natFromDigits_append_one, ih (n / 10) (by omega),
        digitVal_digitChar (n % 10) (Nat.mod_lt _ (by norm_num))]
      omega

theorem natFromDigits_serNat (n : ℕ) : natFromDigits (serNat n) = n :=
  natFromDigits_serNatAux n n (le_refl n)

theorem takeWhile_digits_append (l rest : List Char) (hl : ∀ c ∈ l, c.isDigit = true)
    (hr : headIsDigit rest = false) :
    (l ++ rest).takeWhile Char.isDigit = l ∧ (l ++ rest).dropWhile Char.isDigit = rest := by
  induction l with
  | nil =>
    cases rest with
    | nil => simp
    | cons c t =>
      have hr2 : c.isDigit = false := hr
      simp [List.takeWhile_cons, List.dropWhile_cons, hr2]
  | cons c t ih =>
    have hc : c.isDigit = true := hl c (by simp)
    have iht := ih (fun x hx => hl x (by simp [hx]))
    simp [List.takeWhile_cons, List.dropWhile_cons, hc, iht.1, iht.2]

theorem parseDigits_serNat (n : ℕ) (rest : List Char) (hr : headIsDigit rest = false) :
    parseDigits (serNat n ++ rest) = some (n, rest) := by
  have h := takeWhile_digits_append (serNat n) rest (serNat_all_digits n) hr
  unfold parseDigits
  rw [h.1, h.2]
  simp [serNat_ne_nil n, natFromDigits_serNat n]

theorem string_mk_toList (s : String) : String.mk s.toList = s := rfl

theorem isJsonWs_of_digit (c : Char) (h : c.isDigit = true) : isJsonWs c = false := by
  have h1 : c ≠ ' ' := fun e => by subst e; exact absurd h (by decide)
  have h2 : c ≠ '\t' := fun e => by subst e; exact absurd h (by decide)
  have h3 : c ≠ '\n' := fun e => by subst e; exact absurd h (by decide)
  have h4 : c ≠ '\r' := fun e => by subst e; exact absurd h (by decide)
  simp [isJsonWs, h1, h2, h3, h4]

theorem ne_rbracket_of_digit (c : Char) (h : c.isDigit = true) : c ≠ ']' := by
  intro e
  subst e
  exact absurd h (by decide)

theorem skipWs_cons_not_ws (c : Char) (cs : List Char) (h : isJsonWs c = false) :
    skipWs (c :: cs) = c :: cs := by
  simp [skipWs, List.dropWhile_cons, h]

theorem hexVal?_hexDigitChar (n : ℕ) (h : n < 16) : hexVal? (hexDigitChar n) = some n := by
  interval_cases n <;> decide

set_option maxHeartbeats 1000000 in
theorem parseStrChars_escChar (c : Char) (X : List Char) :
    parseStrChars (escChar c ++ X) = (parseStrChars X).map (fun p => (c :: p.1, p.2)) := by
  unfold escChar
  split_ifs with h1 h2 h3 h4 h5 h6 h7 h8
  · subst h1; rw [List.cons_append, List.cons_append, parseStrChars.eq_def]
    simp [unescChar]
  · subst h2; rw [List.cons_append, List.cons_append, parseStrChars.eq_def]
    simp [unescChar]
  · rw [List.cons_append, List.cons_append, parseStrChars.eq_def]
    simp [unescChar, h3]
  · subst h4; rw [List.cons_append, List.cons_append, parseStrChars.eq_def]
    simp [unescChar]
  · subst h5; rw [List.cons_append, List.cons_append, parseStrChars.eq_def]
    simp [unescChar]
  · rw [List.cons_append, List.cons_append, parseStrChars.eq_def]
    simp [unescChar, h6]
  · rw [List.cons_append, List.cons_append, parseStrChars.eq_def]
    simp [unescChar, h7]
  · have hhi : hexVal? (hexDigitChar (c.toNat / 16)) = some (c.toNat / 16) :=
      hexVal?_hexDigitChar _ (by omega)
    have hlo : hexVal? (hexDigitChar (c.toNat % 16)) = some (c.toNat % 16) :=
      hexVal?_hexDigitChar _ (by omega)
    have h0 : hexVal? '0' = some 0 := by decide
    show parseStrChars ('\\' :: 'u' :: '0' :: '0' :: hexDigitChar (c.toNat / 16) ::
      hexDigitChar (c.toNat % 16) :: X) = (parseStrChars X).map (fun p => (c :: p.1, p.2))
    rw [parseStrChars.eq_def]
    have hx : c.toNat / 16 * 16 + c.toNat % 16 = c.toNat := by omega
    simp [h0, hhi, hlo, hx, Char.ofNat_toNat]
  · rw [List.singleton_append, parseStrChars.eq_def]
    simp [h1, h2]

theorem parseStrChars_escape (l rest : List Char) :
    parseStrChars (l.flatMap escChar ++ '"' :: rest) = some (l, rest) := by
  induction l with
  | nil =>
    rw [List.flatMap_nil, List.nil_append, parseStrChars.eq_def]
    simp
  | cons c t ih =>
    have hshape : (c :: t).flatMap escChar ++ '"' :: rest =
        escChar c ++ (t.flatMap escChar ++ '"' :: rest) := by
      simp
    rw [hshape, parseStrChars_escChar, ih]
    rfl

theorem sizeJ_pos (v : Json) : 1 ≤ sizeJ v := by
  cases v <;> simp [sizeJ] <;> omega

theorem sizeItems_pos (vs : List Json) : 1 ≤ sizeItems vs := by
  cases vs <;> simp [sizeItems] <;> omega

theorem sizeFields_pos (kvs : List (String × Json)) : 1 ≤ sizeFields kvs := by
  cases kvs <;> simp [sizeFields] <;> omega

theorem ne_rbrace_of_digit (c : Char) (h : c.isDigit = true) : c ≠ '}' := by
  intro e
  subst e
  exact absurd h (by decide)

theorem serNat_head (n : ℕ) : ∃ d ds, serNat n = d :: ds ∧ d.isDigit = true := by
  cases h : serNat n with
  | nil => exact absurd h (serNat_ne_nil n)
  | cons d ds =>
    refine ⟨d, ds, rfl, serNat_all_digits n d ?_⟩
    rw [h]
    simp

theorem serJson_head (v : Json) :
    ∃ c cs, serJson v = c :: cs ∧ isJsonWs c = false ∧ c ≠ ']' ∧ c ≠ '}' := by
  cases v with
  | num z =>
    simp only [serJson]
    unfold serInt
    split
    · refine ⟨'-', _, rfl, ?_, ?_, ?_⟩ <;> decide
    · obtain ⟨d, ds, hser, hd⟩ := serNat_head z.toNat
      exact ⟨d, ds, hser, isJsonWs_of_digit d hd, ne_rbracket_of_digit d hd,
        ne_rbrace_of_digit d hd⟩
  | null => refine ⟨'n', _, rfl, ?_, ?_, ?_⟩ <;> decide
  | bool b =>
    cases b
    · refine ⟨'f', _, rfl, ?_, ?_, ?_⟩ <;> decide
    · refine ⟨'t', _, rfl, ?_, ?_, ?_⟩ <;> decide
  | str s => refine ⟨'"', _, rfl, ?_, ?_, ?_⟩ <;> decide
  | arr vs =>
    cases vs
    · refine ⟨'[', _, rfl, ?_, ?_, ?_⟩ <;> decide
    · refine ⟨'[', _, rfl, ?_, ?_, ?_⟩ <;> decide
  | obj kvs =>
    cases kvs
    · refine ⟨'\x7b', _, rfl, ?_, ?_, ?_⟩ <;> decide
    · refine ⟨'\x7b', _, rfl, ?_, ?_, ?_⟩ <;> decide

theorem skipWs_serJson (v : Json) (X : List Char) :
    skipWs (serJson v ++ X) = serJson v ++ X := by
  obtain ⟨c, cs, hser, hws, _, _⟩ := serJson_head v
  rw [hser, List.cons_append, skipWs_cons_not_ws _ _ hws]

theorem parseArrBody_ne (fuel : ℕ) (c : Char) (cs : List Char) (h : c ≠ ']') :
    parseArrBody (fuel + 1) (c :: cs) =
      (parseItems fuel (c :: cs)).map (fun p => (Json.arr p.1, p.2)) := by
  rw [parseArrBody]
  intro r heq
  rw [List.cons.injEq] at heq
  exact h heq.1

theorem parseObjBody_ne (fuel : ℕ) (c : Char) (cs : List Char) (h : c ≠ '}') :
    parseObjBody (fuel + 1) (c :: cs) =
      (parseFields fuel (c :: cs)).map (fun p => (Json.obj p.1, p.2)) := by
  rw [parseObjBody]
  intro r heq
  rw [List.cons.injEq] at heq
  exact h heq.1

theorem headIsDigit_comma (X : List Char) : headIsDigit (',' :: X) = false := rfl

/-- The round-trip core: with enough fuel, the parser reads a serialized value
back as itself, leaving any non-digit-leading remainder untouched. -/
theorem parse_ser (fuel : ℕ) :
    (∀ (v : Json) (rest : List Char), sizeJ v < fuel → headIsDigit rest = false →
      parseVal fuel (serJson v ++ rest) = some (v, rest)) ∧
    (∀ (v : Json) (vs : List Json) (rest : List Char), 1 + sizeJ v + sizeItems vs < fuel →
      parseItems fuel (serJson v ++ (serTail vs ++ ']' :: rest)) = some (v :: vs, rest)) ∧
    (∀ (k : String) (v : Json) (kvs : List (String × Json)) (rest : List Char),
      1 + sizeJ v + sizeFields kvs < fuel →
      parseFields fuel (serStr k ++ ':' :: (serJson v ++ (serFieldTail kvs ++ '}' :: rest))) =
        some ((k, v) :: kvs, rest)) := by
  induction fuel using Nat.strong_induction_on with
  | _ fuel ih =>
    cases fuel with
    | zero =>
      refine ⟨fun v rest h _ => absurd h (by omega), fun v vs rest h => absurd h (by omega),
        fun k v kvs rest h => absurd h (by omega)⟩
    | succ g =>
    have ihV : ∀ m, m < g + 1 → ∀ (v : Json) (rest : List Char), sizeJ v < m →
        headIsDigit rest = false → parseVal m (serJson v ++ rest) = some (v, rest) :=
      fun m hm => (ih m hm).1
    have ihI : ∀ m, m < g + 1 → ∀ (v : Json) (vs : List Json) (rest : List Char),
        1 + sizeJ v + sizeItems vs < m →
        parseItems m (serJson v ++ (serTail vs ++ ']' :: rest)) = some (v :: vs, rest) :=
      fun m hm => (ih m hm).2.1
    have ihF : ∀ m, m < g + 1 → ∀ (k : String) (v : Json) (kvs : List (String × Json))
        (rest : List Char), 1 + sizeJ v + sizeFields kvs < m →
        parseFields m (serStr k ++ ':' :: (serJson v ++ (serFieldTail kvs ++ '}' :: rest))) =
          some ((k, v) :: kvs, rest) :=
      fun m hm => (ih m hm).2.2
    have stepV : ∀ (v : Json) (rest : List Char), sizeJ v < g + 1 → headIsDigit rest = false →
        parseVal (g + 1) (serJson v ++ rest) = some (v, rest) := by
      intro v rest hsz hrest
      cases v with
      | null =>
        show parseVal (g + 1) ('n' :: 'u' :: 'l' :: 'l' :: rest) = some (.null, rest)
        simp only [parseVal]
        rw [skipWs_cons_not_ws _ _ (by decide)]
        simp
      | bool b =>
        cases b with
        | true =>
          show parseVal (g + 1) ('t' :: 'r' :: 'u' :: 'e' :: rest) = some (.bool true, rest)
          simp only [parseVal]
          rw [skipWs_cons_not_ws _ _ (by decide)]
          simp
        | false =>
          show parseVal (g + 1) ('f' :: 'a' :: 'l' :: 's' :: 'e' :: rest) =
            some (.bool false, rest)
          simp only [parseVal]
          rw [skipWs_cons_not_ws _ _ (by decide)]
          simp
      | num z =>
        show parseVal (g + 1) (serInt z ++ rest) = some (.num z, rest)
        unfold serInt
        split
        · rename_i hneg
          rw [List.cons_append]
          simp only [parseVal]
          rw [skipWs_cons_not_ws _ _ (by decide)]
          have hd := parseDigits_serNat z.natAbs rest hrest
          have hz : -|z| = z := by rw [abs_of_neg hneg]; ring
          simp [hd, hz]
        · rename_i hpos
          obtain ⟨d, ds, hser, hdig⟩ := serNat_head z.toNat
          rw [hser, List.cons_append]
          simp only [parseVal]
          rw [skipWs_cons_not_ws _ _ (isJsonWs_of_digit d hdig)]
          have hd := parseDigits_serNat z.toNat rest hrest
          rw [hser] at hd
          rw [List.cons_append] at hd
          have hz : ((z.toNat : ℤ)) = z := by omega
          simp [hdig, hd, hz]
      | str s =>
        show parseVal (g + 1) (('"' :: (s.toList.flatMap escChar ++ ['"'])) ++ rest) =
          some (.str s, rest)
        rw [List.cons_append,
          show (s.toList.flatMap escChar ++ ['"']) ++ rest =
            s.toList.flatMap escChar ++ '"' :: rest from by simp]
        simp only [parseVal]
        rw [skipWs_cons_not_ws _ _ (by decide)]
        simp [parseStrChars_escape, string_mk_toList]
      | arr vs =>
        simp only [sizeJ] at hsz
        cases vs with
        | nil =>
          show parseVal (g + 1) ('[' :: ']' :: rest) = some (.arr [], rest)
          simp only [sizeItems] at hsz
          cases g with
          | zero => omega
          | succ g2 =>
            simp only [parseVal]
            rw [skipWs_cons_not_ws _ _ (by decide)]
            show parseArrBody (g2 + 1) (skipWs (']' :: rest)) = some (Json.arr [], rest)
            rw [skipWs_cons_not_ws _ _ (show isJsonWs ']' = false by decide)]
            simp [parseArrBody]
        | cons v vs =>
          show parseVal (g + 1)
            (('[' :: (serJson v ++ serTail vs ++ [']'])) ++ rest) = some (.arr (v :: vs), rest)
          rw [List.cons_append,
            show (serJson v ++ serTail vs ++ [']']) ++ rest =
              serJson v ++ (serTail vs ++ ']' :: rest) from by simp]
          simp only [sizeItems] at hsz
          cases g with
          | zero => omega
          | succ g2 =>
            simp only [parseVal]
            rw [skipWs_cons_not_ws _ _ (by decide)]
            show parseArrBody (g2 + 1)
              (skipWs (serJson v ++ (serTail vs ++ ']' :: rest))) =
              some (Json.arr (v :: vs), rest)
            rw [skipWs_serJson]
            obtain ⟨c, cs, hser, hws, hbr, hbc⟩ := serJson_head v
            rw [hser, List.cons_append, parseArrBody_ne g2 c _ hbr, ← List.cons_append, ← hser]
            have hi := ihI g2 (by omega) v vs rest (by omega)
            rw [hi]
            simp
      | obj kvs =>
        simp only [sizeJ] at hsz
        cases kvs with
        | nil =>
          show parseVal (g + 1) ('{' :: '}' :: rest) = some (.obj [], rest)
          simp only [sizeFields] at hsz
          cases g with
          | zero => omega
          | succ g2 =>
            simp only [parseVal]
            rw [skipWs_cons_not_ws _ _ (by decide)]
            show parseObjBody (g2 + 1) (skipWs ('}' :: rest)) = some (Json.obj [], rest)
            rw [skipWs_cons_not_ws _ _ (show isJsonWs '}' = false by decide)]
            simp [parseObjBody]
        | cons kv kvs =>
          obtain ⟨k, v⟩ := kv
          show parseVal (g + 1)
            (('{' :: (serField (k, v) ++ serFieldTail kvs ++ ['}'])) ++ rest) =
            some (.obj ((k, v) :: kvs), rest)
          rw [List.cons_append,
            show (serField (k, v) ++ serFieldTail kvs ++ ['}']) ++ rest =
              '"' :: (k.toList.flatMap escChar ++
                '"' :: (':' :: (serJson v ++ (serFieldTail kvs ++ '}' :: rest)))) from by
              simp [serField, serStr]]
          simp only [sizeFields] at hsz
          cases g with
          | zero => omega
          | succ g2 =>
            simp only [parseVal]
            rw [skipWs_cons_not_ws _ _ (by decide)]
            show parseObjBody (g2 + 1) (skipWs ('"' :: (k.toList.flatMap escChar ++
              '"' :: (':' :: (serJson v ++ (serFieldTail kvs ++ '}' :: rest)))))) =
              some (Json.obj ((k, v) :: kvs), rest)
            rw [skipWs_cons_not_ws _ _ (by decide), parseObjBody_ne g2 '"' _ (by decide)]
            have hi := ihF g2 (by omega) k v kvs rest (by omega)
            rw [show ('"' : Char) :: (k.toList.flatMap escChar ++
              '"' :: (':' :: (serJson v ++ (serFieldTail kvs ++ '}' :: rest)))) =
              serStr k ++ ':' :: (serJson v ++ (serFieldTail kvs ++ '}' :: rest)) from by
              simp [serStr], hi]
            simp
    refine ⟨stepV, ?_, ?_⟩
    · intro v vs rest hsz
      have hrest2 : headIsDigit (serTail vs ++ ']' :: rest) = false := by
        cases vs with
        | nil => rfl
        | cons u us => rfl
      have hv := ihV g (by omega) v (serTail vs ++ ']' :: rest) (by
        have h1 := sizeItems_pos vs
        omega) hrest2
      simp only [parseItems, hv]
      cases vs with
      | nil =>
        rw [show serTail [] ++ ']' :: rest = ']' :: rest from rfl,
          skipWs_cons_not_ws _ _ (by decide)]
        rfl
      | cons u us =>
        rw [show serTail (u :: us) ++ ']' :: rest =
          ',' :: (serJson u ++ (serTail us ++ ']' :: rest)) from by simp [serTail],
          skipWs_cons_not_ws _ _ (by decide)]
        have hi := ihI g (by omega) u us rest (by
          have h1 := sizeJ_pos v
          simp only [sizeItems] at hsz
          omega)
        simp [hi]
    · intro k v kvs rest hsz
      have hrest3 : headIsDigit (serFieldTail kvs ++ '}' :: rest) = false := by
        cases kvs with
        | nil => rfl
        | cons kv2 kvs2 => rfl
      have hv := ihV g (by omega) v (serFieldTail kvs ++ '}' :: rest) (by
        have h1 := sizeFields_pos kvs
        omega) hrest3
      rw [show serStr k ++ ':' :: (serJson v ++ (serFieldTail kvs ++ '}' :: rest)) =
        '"' :: (k.toList.flatMap escChar ++
          '"' :: (':' :: (serJson v ++ (serFieldTail kvs ++ '}' :: rest)))) from by
          simp [serStr]]
      simp only [parseFields]
      rw [skipWs_cons_not_ws _ _ (by decide)]
      show (match parseStrChars (k.toList.flatMap escChar ++
          '"' :: (':' :: (serJson v ++ (serFieldTail kvs ++ '}' :: rest)))) with
        | none => none
        | some (kcs, r) =>
          match skipWs r with
          | ':' :: r2 =>
            match parseVal g r2 with
            | none => none
            | some (v, r3) =>
              match skipWs r3 with
              | ',' :: r4 =>
                (parseFields g r4).map (fun p => ((String.mk kcs, v) :: p.1, p.2))
              | '}' :: r4 => some ([(String.mk kcs, v)], r4)
              | _ => none
          | _ => none) = some ((k, v) :: kvs, rest)
      rw [parseStrChars_escape]
      show (match skipWs (':' :: (serJson v ++ (serFieldTail kvs ++ '}' :: rest))) with
        | ':' :: r2 =>
          match parseVal g r2 with
          | none => none
          | some (v2, r3) =>
            match skipWs r3 with
            | ',' :: r4 =>
              (parseFields g r4).map (fun p => ((String.mk k.toList, v2) :: p.1, p.2))
            | '}' :: r4 => some ([(String.mk k.toList, v2)], r4)
            | _ => none
        | _ => none) = some ((k, v) :: kvs, rest)
      rw [skipWs_cons_not_ws _ _ (show isJsonWs ':' = false by decide)]
      show (match parseVal g (serJson v ++ (serFieldTail kvs ++ '}' :: rest)) with
        | none => none
        | some (v2, r3) =>
          match skipWs r3 with
          | ',' :: r4 =>
            (parseFields g r4).map (fun p => ((String.mk k.toList, v2) :: p.1, p.2))
          | '}' :: r4 => some ([(String.mk k.toList, v2)], r4)
          | _ => none) = some ((k, v) :: kvs, rest)
      rw [hv]
      cases kvs with
      | nil =>
        rw [show serFieldTail [] ++ '}' :: rest = '}' :: rest from rfl]
        show (match skipWs ('}' :: rest) with
          | ',' :: r4 =>
            (parseFields g r4).map (fun p => ((String.mk k.toList, v) :: p.1, p.2))
          | '}' :: r4 => some ([(String.mk k.toList, v)], r4)
          | _ => none) = some ([(k, v)], rest)
        rw [skipWs_cons_not_ws _ _ (by decide)]
        simp [string_mk_toList]
      | cons kv2 kvs2 =>
        obtain ⟨k2, v2⟩ := kv2
        rw [show serFieldTail ((k2, v2) :: kvs2) ++ '}' :: rest =
          ',' :: (serStr k2 ++ ':' :: (serJson v2 ++ (serFieldTail kvs2 ++ '}' :: rest)))
          from by simp [serFieldTail, serField]]
        show (match skipWs (',' ::
            (serStr k2 ++ ':' :: (serJson v2 ++ (serFieldTail kvs2 ++ '}' :: rest)))) with
          | ',' :: r4 =>
            (parseFields g r4).map (fun p => ((String.mk k.toList, v) :: p.1, p.2))
          | '}' :: r4 => some ([(String.mk k.toList, v)], r4)
          | _ => none) = some ((k, v) :: (k2, v2) :: kvs2, rest)
        rw [skipWs_cons_not_ws _ _ (by decide)]
        have hi := ihF g (by omega) k2 v2 kvs2 rest (by
          have h1 := sizeJ_pos v
          simp only [sizeFields] at hsz
          omega)
        simp [hi, string_mk_toList]

theorem serJson_length_pos (v : Json) : 1 ≤ (serJson v).length := by
  obtain ⟨c, cs, hser, _, _, _⟩ := serJson_head v
  rw [hser]
  simp

theorem serStr_length (k : String) : 2 ≤ (serStr k).length := by
  simp [serStr]

/-- The parser fuel `2 * length + 2` dominates the size measure of any
serialized value (by strong induction over the structural size). -/
theorem size_le_core (n : ℕ) :
    (∀ v : Json, sizeOf v ≤ n → sizeJ v ≤ 2 * (serJson v).length) ∧
    (∀ vs : List Json, sizeOf vs ≤ n → sizeItems vs ≤ 2 * (serTail vs).length + 1) ∧
    (∀ kvs : List (String × Json), sizeOf kvs ≤ n →
      sizeFields kvs ≤ 2 * (serFieldTail kvs).length + 1) := by
  induction n using Nat.strong_induction_on with
  | _ n ih =>
    refine ⟨?_, ?_, ?_⟩
    · intro v hv
      cases v with
      | null => simp [sizeJ, serJson]
      | bool b => cases b <;> simp [sizeJ, serJson]
      | num z =>
        have h1 := serJson_length_pos (.num z)
        simp only [sizeJ]
        omega
      | str s =>
        have h1 := serJson_length_pos (.str s)
        simp only [sizeJ]
        omega
      | arr vs =>
        cases n with
        | zero => simp at hv
        | succ m =>
          have hvs : sizeOf vs ≤ m := by
            have := Json.arr.sizeOf_spec vs
            omega
          cases vs with
          | nil => simp [sizeJ, sizeItems, serJson]
          | cons u us =>
            have hu : sizeOf u ≤ m := by
              have h2 := List.cons.sizeOf_spec u us
              have h3 := Json.arr.sizeOf_spec (u :: us)
              omega
            have hus : sizeOf us ≤ m := by
              have h2 := List.cons.sizeOf_spec u us
              have h3 := Json.arr.sizeOf_spec (u :: us)
              omega
            have hV := (ih m (by omega)).1 u hu
            have hI := (ih m (by omega)).2.1 us hus
            have hlen : (serJson (.arr (u :: us))).length =
                2 + (serJson u).length + (serTail us).length := by
              simp [serJson]
              omega
            simp only [sizeJ, sizeItems] at hI ⊢
            omega
      | obj kvs =>
        cases n with
        | zero => simp at hv
        | succ m =>
          have hkvs : sizeOf kvs ≤ m := by
            have := Json.obj.sizeOf_spec kvs
            omega
          cases kvs with
          | nil => simp [sizeJ, sizeFields, serJson]
          | cons kv kvs2 =>
            obtain ⟨k, v⟩ := kv
            have hv2 : sizeOf v ≤ m := by
              have h2 := List.cons.sizeOf_spec (k, v) kvs2
              have h3 := Json.obj.sizeOf_spec ((k, v) :: kvs2)
              have h4 : sizeOf ((k, v) : String × Json) = 1 + sizeOf k + sizeOf v := rfl
              omega
            have hkvs2 : sizeOf kvs2 ≤ m := by
              have h2 := List.cons.sizeOf_spec (k, v) kvs2
              have h3 := Json.obj.sizeOf_spec ((k, v) :: kvs2)
              omega
            have hV := (ih m (by omega)).1 v hv2
            have hF := (ih m (by omega)).2.2 kvs2 hkvs2
            have hfield : (serField (k, v)).length =
                (serStr k).length + 1 + (serJson v).length := by
              simp [serField]
              omega
            have hstr := serStr_length k
            have hlen : (serJson (.obj ((k, v) :: kvs2))).length =
                2 + (serField (k, v)).length + (serFieldTail kvs2).length := by
              simp [serJson]
              omega
            simp only [sizeJ, sizeFields] at hF ⊢
            omega
    · intro vs hvs
      cases vs with
      | nil => simp [sizeItems, serTail]
      | cons u us =>
        cases n with
        | zero => simp at hvs
        | succ m =>
          have hu : sizeOf u ≤ m := by
            have := List.cons.sizeOf_spec u us
            omega
          have hus : sizeOf us ≤ m := by
            have := List.cons.sizeOf_spec u us
            omega
          have hV := (ih m (by omega)).1 u hu
          have hI := (ih m (by omega)).2.1 us hus
          have hlen : (serTail (u :: us)).length =
              1 + (serJson u).length + (serTail us).length := by
            simp [serTail]
            omega
          simp only [sizeItems]
          omega
    · intro kvs hkvs
      cases kvs with
      | nil => simp [sizeFields, serFieldTail]
      | cons kv kvs2 =>
        obtain ⟨k, v⟩ := kv
        cases n with
        | zero => simp at hkvs
        | succ m =>
          have hv2 : sizeOf v ≤ m := by
            have h1 := List.cons.sizeOf_spec (k, v) kvs2
            have h2 : sizeOf ((k, v) : String × Json) = 1 + sizeOf k + sizeOf v := rfl
            have h3 : 1 ≤ sizeOf k := by
              cases k
              simp
            omega
          have hkvs2 : sizeOf kvs2 ≤ m := by
            have := List.cons.sizeOf_spec (k, v) kvs2
            omega
          have hV := (ih m (by omega)).1 v hv2
          have hF := (ih m (by omega)).2.2 kvs2 hkvs2
          have hfield : (serField (k, v)).length =
              (serStr k).length + 1 + (serJson v).length := by
            simp [serField]
            omega
          have hstr := serStr_length k
          have hlen : (serFieldTail ((k, v) :: kvs2)).length =
              1 + (serField (k, v)).length + (serFieldTail kvs2).length := by
            simp [serFieldTail]
            omega
          simp only [sizeFields]
          omega

theorem sizeJ_le_fuel (v : Json) : sizeJ v < 2 * (serJson v).length + 2 := by
  have h := (size_le_core (sizeOf v)).1 v (le_refl _)
  omega

/-- `JSON.parse (JSON.stringify v)` recovers `v` exactly. -/
theorem parseJsonText_serJson (v : Json) : parseJsonText (serJson v) = some v := by
  unfold parseJsonText
  have h := (parse_ser (2 * (serJson v).length + 2)).1 v [] (sizeJ_le_fuel v) rfl
  rw [List.append_nil] at h
  rw [h]
  simp [skipWs]

theorem toList_mk (l : List Char) : (String.mk l).toList = l := rfl

/-- C4: for every string input, `safeParseJson` terminates without an escaping
exception and returns a value (possibly null): every branch of the embedded
function is `Except.ok`. -/
theorem c4_extractor_totality (s : String) :
    ∃ v : Json, safeParseCore s.toList = .ok v ∧ safeParseJson s = v := by
  have h : ∃ v : Json, safeParseCore s.toList = .ok v := by
    unfold safeParseCore
    split
    · exact ⟨_, rfl⟩
    · split
      · exact ⟨_, rfl⟩
      · split
        · exact ⟨_, rfl⟩
        · split
          · exact ⟨_, rfl⟩
          · cases hp : (lineValues s.toList).isEmpty
            · refine ⟨Json.arr (lineValues s.toList), ?_⟩
              show (if (lineValues s.toList).isEmpty = true then Except.ok Json.null
                else Except.ok (Json.arr (lineValues s.toList))) = _
              rw [hp]
              simp
            · refine ⟨Json.null, ?_⟩
              show (if (lineValues s.toList).isEmpty = true then Except.ok Json.null
                else Except.ok (Json.arr (lineValues s.toList))) = _
              rw [hp]
              simp
  obtain ⟨v, hv⟩ := h
  refine ⟨v, hv, ?_⟩
  unfold safeParseJson
  rw [hv]

theorem dropWhile_eq_self_of_head (p : Char → Bool) (l : List Char)
    (h : ∀ c, l.head? = some c → p c = false) : l.dropWhile p = l := by
  cases l with
  | nil => rfl
  | cons c t => simp [List.dropWhile_cons, h c rfl]

theorem isTrimWs_of_digit (c : Char) (h : c.isDigit = true) : isTrimWs c = false := by
  have h1 : c ≠ ' ' := fun e => by subst e; exact absurd h (by decide)
  have h2 : c ≠ '\t' := fun e => by subst e; exact absurd h (by decide)
  have h3 : c ≠ '\n' := fun e => by subst e; exact absurd h (by decide)
  have h4 : c ≠ '\r' := fun e => by subst e; exact absurd h (by decide)
  have h5 : c ≠ Char.ofNat 11 := fun e => by subst e; exact absurd h (by decide)
  have h6 : c ≠ Char.ofNat 12 := fun e => by subst e; exact absurd h (by decide)
  simp [isTrimWs, h1, h2, h3, h4, h5, h6]

theorem serJson_head_not_trim (v : Json) :
    ∃ c cs, serJson v = c :: cs ∧ isTrimWs c = false := by
  cases v with
  | null => exact ⟨'n', _, rfl, by decide⟩
  | bool b => cases b with
    | true => exact ⟨'t', _, rfl, by decide⟩
    | false => exact ⟨'f', _, rfl, by decide⟩
  | num z =>
    simp only [serJson]
    unfold serInt
    split
    · exact ⟨'-', _, rfl, by decide⟩
    · obtain ⟨d, ds, hser, hd⟩ := serNat_head z.toNat
      exact ⟨d, ds, hser, isTrimWs_of_digit d hd⟩
  | str s => exact ⟨'"', _, rfl, by decide⟩
  | arr vs => cases vs with
    | nil => exact ⟨'[', _, rfl, by decide⟩
    | cons v vs => exact ⟨'[', _, rfl, by decide⟩
  | obj kvs => cases kvs with
    | nil => exact ⟨'{', _, rfl, by decide⟩
    | cons kv kvs => exact ⟨'{', _, rfl, by decide⟩

theorem serNat_last_digit (n : ℕ) :
    ∃ d, (serNat n).getLast? = some d ∧ d.isDigit = true := by
  unfold serNat
  rw [serNatAux]
  split
  · exact ⟨digitChar n, by simp, digitChar_isDigit n⟩
  · exact ⟨digitChar (n % 10), by rw [List.getLast?_concat], digitChar_isDigit _⟩

theorem serJson_last_not_trim (v : Json) :
    ∃ c, (serJson v).getLast? = some c ∧ isTrimWs c = false := by
  cases v with
  | null => exact ⟨'l', by rfl, by decide⟩
  | bool b => cases b with
    | true => exact ⟨'e', by rfl, by decide⟩
    | false => exact ⟨'e', by rfl, by decide⟩
  | num z =>
    simp only [serJson]
    unfold serInt
    split
    · obtain ⟨d, hlast, hd⟩ := serNat_last_digit z.natAbs
      refine ⟨d, ?_, isTrimWs_of_digit d hd⟩
      rw [List.getLast?_cons, hlast]
      simp
    · obtain ⟨d, hlast, hd⟩ := serNat_last_digit z.toNat
      exact ⟨d, hlast, isTrimWs_of_digit d hd⟩
  | str s =>
    refine ⟨'"', ?_, by decide⟩
    show (('"' :: (s.toList.flatMap escChar ++ ['"'])).getLast?) = some '"'
    rw [show ('"' :: (s.toList.flatMap escChar ++ ['"'])) =
      ('"' :: s.toList.flatMap escChar) ++ ['"'] from by simp,
      List.getLast?_concat]
  | arr vs =>
    cases vs with
    | nil => exact ⟨']', by rfl, by decide⟩
    | cons v vs =>
      refine ⟨']', ?_, by decide⟩
      show (('[' :: (serJson v ++ serTail vs ++ [']'])).getLast?) = some ']'
      rw [show ('[' :: (serJson v ++ serTail vs ++ [']'])) =
        ('[' :: (serJson v ++ serTail vs)) ++ [']'] from by simp,
        List.getLast?_concat]
  | obj kvs =>
    cases kvs with
    | nil => exact ⟨'}', by rfl, by decide⟩
    | cons kv kvs =>
      refine ⟨'}', ?_, by decide⟩
      show (('{' :: (serField kv ++ serFieldTail kvs ++ ['}'])).getLast?) = some '}'
      rw [show ('{' :: (serField kv ++ serFieldTail kvs ++ ['}'])) =
        ('{' :: (serField kv ++ serFieldTail kvs)) ++ ['}'] from by simp,
        List.getLast?_concat]

theorem jsTrim_serJson (v : Json) : jsTrim (serJson v) = serJson v := by
  unfold jsTrim
  obtain ⟨c, cs, hser, hc⟩ := serJson_head_not_trim v
  obtain ⟨d, hlast, hd⟩ := serJson_last_not_trim v
  have h1 : (serJson v).dropWhile isTrimWs = serJson v := by
    apply dropWhile_eq_self_of_head
    intro x hx
    rw [hser] at hx
    simp at hx
    subst hx
    exact hc
  rw [h1]
  have h2 : (serJson v).reverse.dropWhile isTrimWs = (serJson v).reverse := by
    apply dropWhile_eq_self_of_head
    intro x hx
    rw [List.head?_reverse, hlast] at hx
    injection hx with hx
    subst hx
    exact hd
  rw [h2, List.reverse_reverse]

/-- C5: for every JSON-encodable value `v`, `safeParseJson (JSON.stringify v)`
is structurally equal to `v` — the round trip succeeds at the Extractor's
direct-parse stage. -/
theorem c5_extractor_round_trip (v : Json) : safeParseJson (jsonStringify v) = v := by
  unfold safeParseJson jsonStringify
  rw [toList_mk]
  obtain ⟨c, cs, hser, _⟩ := serJson_head_not_trim v
  unfold safeParseCore
  rw [if_neg (by rw [hser]; simp)]
  rw [jsTrim_serJson]
  unfold jsonParseExn
  rw [parseJsonText_serJson]

theorem findFirstIdx_spec (p : Char → Bool) (cs : List Char) (i : ℕ)
    (h : findFirstIdx p cs = some i) :
    ∃ c, (cs.drop i).head? = some c ∧ p c = true ∧ c ∈ cs := by
  induction cs generalizing i with
  | nil => simp [findFirstIdx] at h
  | cons c t ih =>
    rw [findFirstIdx] at h
    split at h
    · rename_i hp
      injection h with h
      subst h
      exact ⟨c, rfl, hp, by simp⟩
    · rcases Option.map_eq_some'.1 h with ⟨j, hj, rfl⟩
      obtain ⟨c2, hh, hp2, hm⟩ := ih j hj
      exact ⟨c2, by simpa using hh, hp2, by simp [hm]⟩

theorem jsTrim_eq_nil_of_all (l : List Char) (h : l.all isTrimWs = true) :
    jsTrim l = [] := by
  unfold jsTrim
  rw [List.all_eq_true] at h
  have h1 : l.dropWhile isTrimWs = [] := List.dropWhile_eq_nil_iff.2 (fun a ha => h a ha)
  rw [h1]
  simp

theorem jsTrim_ne_nil_of_not_all (l : List Char) (h : l.all isTrimWs = false) :
    jsTrim l ≠ [] := by
  intro he
  unfold jsTrim at he
  rw [List.reverse_eq_nil_iff, List.dropWhile_eq_nil_iff] at he
  rw [List.all_eq_false] at h
  obtain ⟨c, hc, hws⟩ := h
  have hc2 : c ∈ l.dropWhile isTrimWs := by
    have hsplit := List.takeWhile_append_dropWhile (p := isTrimWs) (l := l)
    rw [← hsplit] at hc
    rcases List.mem_append.1 hc with hc | hc
    · exact absurd (List.mem_takeWhile_imp hc) (by simp [hws])
    · exact hc
  exact absurd (he c (by simp [hc2])) (by simp [hws])

theorem splitNl_ne_nil (cs : List Char) : splitNl cs ≠ [] := by
  cases cs with
  | nil => simp [splitNl]
  | cons c t =>
    rw [splitNl]
    split
    · simp
    · split <;> simp

theorem mem_of_mem_splitNl (cs : List Char) (seg : List Char) (c : Char)
    (hseg : seg ∈ splitNl cs) (hc : c ∈ seg) : c ∈ cs := by
  induction cs generalizing seg with
  | nil =>
    simp [splitNl] at hseg
    subst hseg
    simp at hc
  | cons a t ih =>
    rw [splitNl] at hseg
    split at hseg
    · rcases List.mem_cons.1 hseg with h | h
      · subst h; simp at hc
      · exact List.mem_cons_of_mem a (ih seg h hc)
    · rename_i hne
      rcases hsp : splitNl t with _ | ⟨s, ss⟩
      · exact absurd hsp (splitNl_ne_nil t)
      · rw [hsp] at hseg
        rcases List.mem_cons.1 hseg with h | h
        · subst h
          rcases List.mem_cons.1 hc with h2 | h2
          · subst h2; simp
          · exact List.mem_cons_of_mem a (ih s (by rw [hsp]; simp) h2)
        · exact List.mem_cons_of_mem a (ih seg (by rw [hsp]; simp [h]) hc)

theorem exists_seg_of_mem (cs : List Char) (c : Char) (hc : c ∈ cs) (hn : c ≠ '\n') :
    ∃ seg ∈ splitNl cs, c ∈ seg := by
  induction cs with
  | nil => simp at hc
  | cons a t ih =>
    rw [splitNl]
    rcases List.mem_cons.1 hc with h | h
    · subst h
      rw [if_neg (by simpa using hn)]
      rcases hsp : splitNl t with _ | ⟨s, ss⟩
      · exact absurd hsp (splitNl_ne_nil t)
      · exact ⟨c :: s, by simp, by simp⟩
    · obtain ⟨seg, hseg, hcseg⟩ := ih h
      split
      · exact ⟨seg, by simp [hseg], hcseg⟩
      · rcases hsp : splitNl t with _ | ⟨s, ss⟩
        · exact absurd hsp (splitNl_ne_nil t)
        · rw [hsp] at hseg
          rcases List.mem_cons.1 hseg with h2 | h2
          · subst h2
            exact ⟨a :: seg, by simp, by simp [hcseg]⟩
          · exact ⟨seg, by simp [h2], hcseg⟩

theorem lineValues_eq_nil_iff (cs : List Char) :
    lineValues cs = [] ↔ cs.all isTrimWs = true := by
  unfold lineValues
  rw [List.map_eq_nil_iff, List.filter_eq_nil_iff]
  constructor
  · intro h
    rw [List.all_eq_true]
    by_contra hex
    push_neg at hex
    obtain ⟨c, hc, hws⟩ := hex
    have hws2 : isTrimWs c = false := by
      cases hb : isTrimWs c
      · rfl
      · exact absurd hb hws
    have hnl : c ≠ '\n' := by
      intro e
      subst e
      exact absurd hws2 (by decide)
    obtain ⟨seg, hseg, hcseg⟩ := exists_seg_of_mem cs c hc hnl
    have hne := jsTrim_ne_nil_of_not_all seg (by
      rw [List.all_eq_false]
      exact ⟨c, hcseg, by simp [hws2]⟩)
    have := h (jsTrim seg) (List.mem_map_of_mem jsTrim hseg)
    simp [List.isEmpty_iff] at this
    exact absurd this hne
  · intro h l hl
    rw [List.mem_map] at hl
    obtain ⟨seg, hseg, rfl⟩ := hl
    have hall : seg.all isTrimWs = true := by
      rw [List.all_eq_true]
      intro c hcseg
      rw [List.all_eq_true] at h
      exact h c (mem_of_mem_splitNl cs seg c hseg hcseg)
    simp [List.isEmpty_iff, jsTrim_eq_nil_of_all seg hall]

theorem parseObjBody_is_obj (f : ℕ) (cs r : List Char) (v : Json)
    (h : parseObjBody f cs = some (v, r)) : ∃ kvs, v = .obj kvs := by
  cases f with
  | zero => simp [parseObjBody] at h
  | succ g =>
    cases cs with
    | nil =>
      have h2 : (parseFields g []).map (fun p => (Json.obj p.1, p.2)) = some (v, r) := h
      rcases Option.map_eq_some'.1 h2 with ⟨p, _, hp⟩
      rw [Prod.mk.injEq] at hp
      exact ⟨p.1, hp.1.symm⟩
    | cons c t =>
      by_cases hc : c = '}'
      · subst hc
        have h2 : (some (Json.obj [], t) : Option (Json × List Char)) = some (v, r) := h
        injection h2 with h2
        rw [Prod.mk.injEq] at h2
        exact ⟨[], h2.1.symm⟩
      · rw [parseObjBody_ne g c t hc] at h
        rcases Option.map_eq_some'.1 h with ⟨p, _, hp⟩
        rw [Prod.mk.injEq] at hp
        exact ⟨p.1, hp.1.symm⟩

theorem parseArrBody_is_arr (f : ℕ) (cs r : List Char) (v : Json)
    (h : parseArrBody f cs = some (v, r)) : ∃ vs, v = .arr vs := by
  cases f with
  | zero => simp [parseArrBody] at h
  | succ g =>
    cases cs with
    | nil =>
      have h2 : (parseItems g []).map (fun p => (Json.arr p.1, p.2)) = some (v, r) := h
      rcases Option.map_eq_some'.1 h2 with ⟨p, _, hp⟩
      rw [Prod.mk.injEq] at hp
      exact ⟨p.1, hp.1.symm⟩
    | cons c t =>
      by_cases hc : c = ']'
      · subst hc
        have h2 : (some (Json.arr [], t) : Option (Json × List Char)) = some (v, r) := h
        injection h2 with h2
        rw [Prod.mk.injEq] at h2
        exact ⟨[], h2.1.symm⟩
      · rw [parseArrBody_ne g c t hc] at h
        rcases Option.map_eq_some'.1 h with ⟨p, _, hp⟩
        rw [Prod.mk.injEq] at hp
        exact ⟨p.1, hp.1.symm⟩

theorem parseJsonText_lbrace (cs : List Char) (v : Json) (hh : cs.head? = some '{')
    (h : parseJsonText cs = some v) : ∃ kvs, v = .obj kvs := by
  cases cs with
  | nil => simp at hh
  | cons c t =>
    injection hh with hh
    subst hh
    unfold parseJsonText at h
    rcases hp : parseVal (2 * ('{' :: t).length + 2) ('{' :: t) with _ | ⟨v2, r⟩
    · rw [hp] at h; simp at h
    · rw [hp] at h
      rw [ite_eq_iff] at h
      rcases h with ⟨hws, h⟩ | ⟨hws, h⟩
      swap
      · simp at h
      injection h with h
      subst h
      rw [show 2 * ('{' :: t).length + 2 = (2 * ('{' :: t).length + 1) + 1 from by omega,
        parseVal] at hp
      rw [skipWs_cons_not_ws _ _ (by decide)] at hp
      have hp2 : parseObjBody (2 * ('{' :: t).length + 1) (skipWs t) = some (v2, r) := hp
      exact parseObjBody_is_obj _ _ _ _ hp2

theorem parseJsonText_lbracket (cs : List Char) (v : Json) (hh : cs.head? = some '[')
    (h : parseJsonText cs = some v) : ∃ vs, v = .arr vs := by
  cases cs with
  | nil => simp at hh
  | cons c t =>
    injection hh with hh
    subst hh
    unfold parseJsonText at h
    rcases hp : parseVal (2 * ('[' :: t).length + 2) ('[' :: t) with _ | ⟨v2, r⟩
    · rw [hp] at h; simp at h
    · rw [hp] at h
      rw [ite_eq_iff] at h
      rcases h with ⟨hws, h⟩ | ⟨hws, h⟩
      swap
      · simp at h
      injection h with h
      subst h
      rw [show 2 * ('[' :: t).length + 2 = (2 * ('[' :: t).length + 1) + 1 from by omega,
        parseVal] at hp
      rw [skipWs_cons_not_ws _ _ (by decide)] at hp
      have hp2 : parseArrBody (2 * ('[' :: t).length + 1) (skipWs t) = some (v2, r) := hp
      exact parseArrBody_is_arr _ _ _ _ hp2

theorem sliceStage_is_obj (cs : List Char) (v : Json)
    (h : sliceStage '{' '}' cs = some v) : (∃ kvs, v = .obj kvs) ∧ '{' ∈ cs := by
  unfold sliceStage at h
  split at h
  case _ first last hf hl =>
    split at h
    · rename_i hfl
      obtain ⟨c, hhead, hp, hmem⟩ := findFirstIdx_spec _ cs first hf
      rw [decide_eq_true_eq] at hp
      subst hp
      constructor
      · split at h
        · rename_i v2 hok
          injection h with h
          subst h
          unfold jsonParseExn at hok
          rcases hpt : parseJsonText ((cs.drop first).take (last + 1 - first)) with _ | v3
          · rw [hpt] at hok; simp at hok
          · rw [hpt] at hok
            injection hok with hok
            subst hok
            refine parseJsonText_lbrace _ _ ?_ hpt
            rcases hd : cs.drop first with _ | ⟨c2, t2⟩
            · rw [hd] at hhead; simp at hhead
            · rw [hd] at hhead
              injection hhead with hhead
              subst hhead
              rw [show last + 1 - first = (last - first) + 1 from by omega]
              rfl
        · simp at h
      · exact hmem
    · simp at h
  case _ => simp at h

theorem sliceStage_is_arr (cs : List Char) (v : Json)
    (h : sliceStage '[' ']' cs = some v) : (∃ vs, v = .arr vs) ∧ '[' ∈ cs := by
  unfold sliceStage at h
  split at h
  case _ first last hf hl =>
    split at h
    · rename_i hfl
      obtain ⟨c, hhead, hp, hmem⟩ := findFirstIdx_spec _ cs first hf
      rw [decide_eq_true_eq] at hp
      subst hp
      constructor
      · split at h
        · rename_i v2 hok
          injection h with h
          subst h
          unfold jsonParseExn at hok
          rcases hpt : parseJsonText ((cs.drop first).take (last + 1 - first)) with _ | v3
          · rw [hpt] at hok; simp at hok
          · rw [hpt] at hok
            injection hok with hok
            subst hok
            refine parseJsonText_lbracket _ _ ?_ hpt
            rcases hd : cs.drop first with _ | ⟨c2, t2⟩
            · rw [hd] at hhead; simp at hhead
            · rw [hd] at hhead
              injection hhead with hhead
              subst hhead
              rw [show last + 1 - first = (last - first) + 1 from by omega]
              rfl
        · simp at h
      · exact hmem
    · simp at h
  case _ => simp at h

/-- C10 counterexample: the input `"null"` is neither empty nor whitespace-only,
yet `safeParseJson` returns null for it (the direct-parse stage succeeds with
JSON `null`), so "returns null exactly when the input is empty or whitespace"
is false. -/
theorem c10_null_counterexample :
    safeParseJson "null" = Json.null ∧ "null" ≠ "" ∧
      ("null".toList.all isTrimWs) = false :=
  ⟨rfl, by decide, by decide⟩

/-- C10 amended: `safeParseJson` returns null exactly when the input is empty,
whitespace-only, or its trimmed text parses as the JSON literal `null`; and on
any input with a non-whitespace character on which the direct-parse and both
bracket-slice stages fail, the line-splitting last resort returns a non-empty
array. -/
theorem c10_null_exactness_amended (s : String) :
    (safeParseJson s = Json.null ↔
      (s.toList.all isTrimWs = true ∨ parseJsonText (jsTrim s.toList) = some Json.null)) ∧
    (s.toList.all isTrimWs = false → parseJsonText (jsTrim s.toList) = none →
      sliceStage '{' '}' s.toList = none → sliceStage '[' ']' s.toList = none →
      ∃ l ls, safeParseJson s = Json.arr (l :: ls)) := by
  by_cases h0 : s.toList = []
  · have hres : safeParseJson s = Json.null := by
      unfold safeParseJson safeParseCore
      rw [if_pos h0]
    have hall : s.toList.all isTrimWs = true := by rw [h0]; rfl
    refine ⟨⟨fun _ => Or.inl hall, fun _ => hres⟩, fun hfalse _ _ _ => ?_⟩
    rw [hall] at hfalse
    cases hfalse
  · cases h1 : jsonParseExn (jsTrim s.toList) with
    | ok v =>
      have hres : safeParseJson s = v := by
        unfold safeParseJson safeParseCore
        rw [if_neg h0, h1]
      have hpt : parseJsonText (jsTrim s.toList) = some v := by
        unfold jsonParseExn at h1
        rcases hp : parseJsonText (jsTrim s.toList) with _ | v2
        · rw [hp] at h1; cases h1
        · rw [hp] at h1; injection h1 with h1; rw [h1]
      refine ⟨⟨?_, ?_⟩, ?_⟩
      · intro hnull
        rw [hres] at hnull
        subst hnull
        exact Or.inr hpt
      · intro hrhs
        rcases hrhs with hall | hnull
        · exfalso
          have htr := jsTrim_eq_nil_of_all _ hall
          rw [htr, show parseJsonText [] = none from rfl] at hpt
          cases hpt
        · rw [hpt] at hnull
          injection hnull with hnull
          rw [hres, hnull]
      · intro _ hnone
        rw [hpt] at hnone
        cases hnone
    | error e =>
      have hptn : parseJsonText (jsTrim s.toList) = none := by
        unfold jsonParseExn at h1
        rcases hp : parseJsonText (jsTrim s.toList) with _ | v2
        · rfl
        · rw [hp] at h1; cases h1
      cases h2 : sliceStage '{' '}' s.toList with
      | some v =>
        have hres : safeParseJson s = v := by
          unfold safeParseJson safeParseCore
          rw [if_neg h0, h1, h2]
        obtain ⟨⟨kvs, hv⟩, hmem⟩ := sliceStage_is_obj _ _ h2
        have hnotall : s.toList.all isTrimWs = false := by
          rw [List.all_eq_false]
          exact ⟨'{', hmem, by decide⟩
        refine ⟨⟨?_, ?_⟩, ?_⟩
        · intro hnull
          rw [hres, hv] at hnull
          cases hnull
        · intro hrhs
          rcases hrhs with hall | hnull
          · rw [hnotall] at hall; cases hall
          · rw [hptn] at hnull; cases hnull
        · intro _ _ hslice _
          exact Option.noConfusion hslice
      | none =>
        cases h3 : sliceStage '[' ']' s.toList with
        | some v =>
          have hres : safeParseJson s = v := by
            unfold safeParseJson safeParseCore
            rw [if_neg h0, h1, h2, h3]
          obtain ⟨⟨vs, hv⟩, hmem⟩ := sliceStage_is_arr _ _ h3
          have hnotall : s.toList.all isTrimWs = false := by
            rw [List.all_eq_false]
            exact ⟨'[', hmem, by decide⟩
          refine ⟨⟨?_, ?_⟩, ?_⟩
          · intro hnull
            rw [hres, hv] at hnull
            cases hnull
          · intro hrhs
            rcases hrhs with hall | hnull
            · rw [hnotall] at hall; cases hall
            · rw [hptn] at hnull; cases hnull
          · intro _ _ _ hslice
            exact Option.noConfusion hslice
        | none =>
          have hres : safeParseJson s =
              (if (lineValues s.toList).isEmpty then Json.null
               else Json.arr (lineValues s.toList)) := by
            unfold safeParseJson safeParseCore
            rw [if_neg h0, h1, h2, h3]
            show (match (if (lineValues s.toList).isEmpty = true then Except.ok Json.null
              else Except.ok (Json.arr (lineValues s.toList)) : Except String Json) with
              | .ok v => v
              | .error _ => Json.null) = _
            cases hl : (lineValues s.toList).isEmpty <;> simp
          refine ⟨⟨?_, ?_⟩, ?_⟩
          · intro hnull
            left
            rw [← lineValues_eq_nil_iff]
            cases hl : (lineValues s.toList).isEmpty
            · rw [hres, hl] at hnull
              simp at hnull
            · simpa [List.isEmpty_iff] using hl
          · intro hrhs
            rcases hrhs with hall | hnull
            · have hempty := (lineValues_eq_nil_iff s.toList).2 hall
              rw [hres, hempty]
              rfl
            · rw [hptn] at hnull
              cases hnull
          · intro hnotall _ _ _
            have hlne : lineValues s.toList ≠ [] := by
              intro he
              have h4 := (lineValues_eq_nil_iff s.toList).1 he
              rw [hnotall] at h4
              cases h4
            rcases hlv : lineValues s.toList with _ | ⟨l, ls⟩
            · exact absurd hlv hlne
            · refine ⟨l, ls, ?_⟩
              rw [hres, hlv]
              rfl

/-- C10 amended witness: the prose input `"foo"` is non-whitespace, fails
every JSON stage, and yields the singleton line array. -/
theorem c10_null_exactness_amended_witness :
    ∃ l ls, safeParseJson "foo" = Json.arr (l :: ls) :=
  (c10_null_exactness_amended "foo").2 (by decide) rfl rfl rfl

theorem find?_setField_self (k : String) (v : Json) :
    ∀ kvs : List (String × Json), ∃ k2 : String,
      (setField kvs k v).find? (fun kv => kv.1 == k) = some (k2, v) := by
  intro kvs
  induction kvs with
  | nil => exact ⟨k, by simp [setField, List.find?]⟩
  | cons hd rest ih =>
    obtain ⟨k2, v2⟩ := hd
    by_cases h : (k2 == k) = true
    · exact ⟨k2, by simp [setField, h, List.find?]⟩
    · obtain ⟨k3, hk3⟩ := ih
      refine ⟨k3, ?_⟩
      simp only [setField, if_neg h, List.find?]
      rw [Bool.eq_false_iff.mpr h] at *
      simpa using hk3

theorem jsGet_jsSet_self (kvs : List (String × Json)) (k : String) (v : Json) :
    jsGet (jsSet (.obj kvs) k v) k = some v := by
  obtain ⟨k2, hk2⟩ := find?_setField_self k v kvs
  simp [jsGet, jsSet, hk2]

theorem find?_setField_other (k k' : String) (v : Json) (hne : (k' == k) = false) :
    ∀ kvs : List (String × Json),
      (setField kvs k v).find? (fun kv => kv.1 == k') =
        kvs.find? (fun kv => kv.1 == k') := by
  have hkk : (k == k') = false := by
    rw [beq_eq_false_iff_ne] at hne ⊢
    exact fun e => hne e.symm
  intro kvs
  induction kvs with
  | nil => simp [setField, List.find?, hkk]
  | cons hd rest ih =>
    obtain ⟨k2, v2⟩ := hd
    by_cases h : (k2 == k) = true
    · have hk2 : k2 = k := by rwa [beq_iff_eq] at h
      subst hk2
      simp [setField, List.find?, hkk]
    · have h' : (k2 == k) = false := Bool.eq_false_iff.mpr h
      simp only [setField, if_neg h, List.find?]
      by_cases hk' : (k2 == k') = true
      · simp [hk']
      · simp [Bool.eq_false_iff.mpr hk', ih]

theorem jsGet_jsSet_other (kvs : List (String × Json)) (k k' : String) (v : Json)
    (hne : (k' == k) = false) :
    jsGet (jsSet (.obj kvs) k v) k' = jsGet (.obj kvs) k' := by
  simp [jsGet, jsSet, find?_setField_other k k' v hne kvs]

theorem ensureItemsField_obj (kvsm : List (String × Json)) :
    ∃ (kvs1 : List (String × Json)) (l : List Json),
      ensureItemsField (Json.obj kvsm) = Json.obj kvs1 ∧
      jsGet (Json.obj kvs1) "items" = some (.arr l) := by
  rcases h : jsGet (Json.obj kvsm) "items" with _ | v
  · refine ⟨setField kvsm "items" (.arr []), [], ?_, jsGet_jsSet_self kvsm "items" (.arr [])⟩
    unfold ensureItemsField
    rw [h]
    rfl
  · cases v with
    | arr l =>
      refine ⟨kvsm, l, ?_, h⟩
      unfold ensureItemsField
      rw [h]
      rfl
    | null =>
      refine ⟨setField kvsm "items" (.arr []), [], ?_, jsGet_jsSet_self kvsm "items" (.arr [])⟩
      unfold ensureItemsField
      rw [h]
      rfl
    | bool b =>
      refine ⟨setField kvsm "items" (.arr []), [], ?_, jsGet_jsSet_self kvsm "items" (.arr [])⟩
      unfold ensureItemsField
      rw [h]
      cases b <;> rfl
    | num n =>
      refine ⟨setField kvsm "items" (.arr []), [], ?_, jsGet_jsSet_self kvsm "items" (.arr [])⟩
      unfold ensureItemsField
      rw [h]
      rfl
    | str s =>
      refine ⟨setField kvsm "items" (.arr []), [], ?_, jsGet_jsSet_self kvsm "items" (.arr [])⟩
      unfold ensureItemsField
      rw [h]
      rfl
    | obj kvs2 =>
      refine ⟨setField kvsm "items" (.arr []), [], ?_, jsGet_jsSet_self kvsm "items" (.arr [])⟩
      unfold ensureItemsField
      rw [h]
      rfl

theorem ensureTitleField_items (kvs1 : List (String × Json)) (l : List Json)
    (h : jsGet (Json.obj kvs1) "items" = some (.arr l)) :
    jsGet (ensureTitleField (Json.obj kvs1)) "items" = some (.arr l) := by
  have hne : ("items" == "title") = false := by decide
  rcases ht : jsGet (Json.obj kvs1) "title" with _ | t
  · unfold ensureTitleField
    rw [ht]
    exact (jsGet_jsSet_other kvs1 "title" "items" (.str "") hne).trans h
  · by_cases htr : jsTruthyJ t = true
    · unfold ensureTitleField
      rw [ht]
      show jsGet (if jsTruthyJ t = true then Json.obj kvs1
        else jsSet (Json.obj kvs1) "title" (Json.str "")) "items" = some (Json.arr l)
      rw [if_pos htr]
      exact h
    · unfold ensureTitleField
      rw [ht]
      show jsGet (if jsTruthyJ t = true then Json.obj kvs1
        else jsSet (Json.obj kvs1) "title" (Json.str "")) "items" = some (Json.arr l)
      rw [if_neg htr]
      exact (jsGet_jsSet_other kvs1 "title" "items" (.str "") hne).trans h

theorem normalizeMonthEntry_has_items (m : Json) (hm : isArrayJ m = false) :
    ∃ items : List Json,
      jsGet (normalizeMonthEntry m) "items" = some (.arr items) := by
  cases m with
  | null => exact ⟨[], rfl⟩
  | bool b => cases b <;> exact ⟨[], rfl⟩
  | num n =>
    have hc : (!jsTruthyJ (Json.num n) || !typeofObject (Json.num n)) = true := by
      simp [typeofObject]
    refine ⟨[], ?_⟩
    unfold normalizeMonthEntry
    rw [if_pos hc]
    rfl
  | str s =>
    have hc : (!jsTruthyJ (Json.str s) || !typeofObject (Json.str s)) = true := by
      simp [typeofObject]
    refine ⟨[], ?_⟩
    unfold normalizeMonthEntry
    rw [if_pos hc]
    rfl
  | arr l => simp [isArrayJ] at hm
  | obj kvsm =>
    obtain ⟨kvs1, l, h1, h2⟩ := ensureItemsField_obj kvsm
    refine ⟨l, ?_⟩
    show jsGet (ensureTitleField (ensureItemsField (Json.obj kvsm))) "items" = some (.arr l)
    rw [h1]
    exact ensureTitleField_items kvs1 l h2

theorem ensureYearMonths_obj (kvs : List (String × Json)) (ys : List Json)
    (hy : jsGet (Json.obj kvs) "years" = some (.arr ys)) :
    ensureYearMonths (Json.obj kvs) =
      jsSet (Json.obj kvs) "years"
        (.arr (ys.map (ensureYearEntry (monthTitlesOf (Json.obj kvs))))) := by
  show (match jsGet (Json.obj kvs) "years" with
    | some (.arr ys2) =>
      jsSet (Json.obj kvs) "years"
        (.arr (ys2.map (ensureYearEntry (monthTitlesOf (Json.obj kvs)))))
    | _ => Json.obj kvs) = _
  rw [hy]

theorem ensureYearEntry_synth (T : List String) (kvsy : List (String × Json))
    (h : ∀ ms : List Json, jsGet (Json.obj kvsy) "months" = some (.arr ms) → ms = []) :
    ensureYearEntry T (Json.obj kvsy) =
      jsSet (Json.obj kvsy) "months"
        (.arr (T.map (fun t => Json.obj [("title", .str t), ("items", .arr [])]))) := by
  show (match jsGet (Json.obj kvsy) "months" with
    | some (.arr ms) =>
      if ms.length = 0 then
        jsSet (Json.obj kvsy) "months"
          (.arr (T.map (fun t => Json.obj [("title", .str t), ("items", .arr [])])))
      else jsSet (Json.obj kvsy) "months" (.arr (ms.map normalizeMonthEntry))
    | _ =>
      jsSet (Json.obj kvsy) "months"
        (.arr (T.map (fun t => Json.obj [("title", .str t), ("items", .arr [])])))) = _
  rcases hm : jsGet (Json.obj kvsy) "months" with _ | v
  · rfl
  · cases v with
    | arr ms =>
      have : ms = [] := h ms hm
      subst this
      rfl
    | null => rfl
    | bool b => rfl
    | num n => rfl
    | str s => rfl
    | obj kvs2 => rfl

theorem ensureYearEntry_keep (T : List String) (kvsy : List (String × Json))
    (ms : List Json) (hm : jsGet (Json.obj kvsy) "months" = some (.arr ms))
    (hne : ms ≠ []) :
    ensureYearEntry T (Json.obj kvsy) =
      jsSet (Json.obj kvsy) "months" (.arr (ms.map normalizeMonthEntry)) := by
  show (match jsGet (Json.obj kvsy) "months" with
    | some (.arr ms2) =>
      if ms2.length = 0 then
        jsSet (Json.obj kvsy) "months"
          (.arr (T.map (fun t => Json.obj [("title", .str t), ("items", .arr [])])))
      else jsSet (Json.obj kvsy) "months" (.arr (ms2.map normalizeMonthEntry))
    | _ =>
      jsSet (Json.obj kvsy) "months"
        (.arr (T.map (fun t => Json.obj [("title", .str t), ("items", .arr [])])))) = _
  rw [hm]
  have h0 : ¬ ms.length = 0 := by simpa using hne
  show (if ms.length = 0 then
      jsSet (Json.obj kvsy) "months"
        (.arr (T.map (fun t => Json.obj [("title", .str t), ("items", .arr [])])))
    else jsSet (Json.obj kvsy) "months" (.arr (ms.map normalizeMonthEntry))) = _
  rw [if_neg h0]

/-- C3: the claim that after `ensureYearMonths` every year entry has exactly 12
month buckets — even when a months array was present but under-populated — is
refuted: a year entry carrying a single month bucket keeps exactly 1 bucket,
because the source only synthesizes buckets when `y.months` is missing, not an
array, or empty (`y.months.length === 0`). -/
theorem c3_month_buckets_counterexample :
    (monthsOfYear0 (ensureYearMonths parsedC3)).map List.length = some 1 ∧ (1 : ℕ) ≠ 12 :=
  ⟨rfl, by decide⟩

/-- C3 (amended): after `ensureYearMonths` on an object with a `years` array,
each year entry is rewritten by `ensureYearEntry`; an object year entry whose
`months` is missing, non-array or empty receives exactly the synthesized
buckets `{title, items: []}`, one per title (the fixed fiscal-order list
`4月 … 3月` of length 12 whenever no top-level `months` array overrides it);
an object year entry with a non-empty `months` array keeps its bucket count
unchanged (no padding to 12), and every non-array bucket value is normalized
to carry an `items` array. -/
theorem c3_month_buckets_amended (parsed : Json) (kvs : List (String × Json))
    (ys : List Json) (hp : parsed = Json.obj kvs)
    (hy : jsGet parsed "years" = some (.arr ys)) :
    jsGet (ensureYearMonths parsed) "years"
      = some (.arr (ys.map (ensureYearEntry (monthTitlesOf parsed)))) ∧
    (∀ y : Json, ∀ kvsy : List (String × Json), y = Json.obj kvsy →
      (∀ ms : List Json, jsGet y "months" = some (Json.arr ms) → ms = []) →
      jsGet (ensureYearEntry (monthTitlesOf parsed) y) "months"
        = some (.arr ((monthTitlesOf parsed).map (fun t =>
            Json.obj [("title", .str t), ("items", .arr [])])))) ∧
    (jsGet parsed "months" = none → monthTitlesOf parsed = defaultMonthTitles) ∧
    defaultMonthTitles.length = 12 ∧
    (∀ y : Json, ∀ kvsy : List (String × Json), ∀ ms : List Json,
      y = Json.obj kvsy → jsGet y "months" = some (Json.arr ms) → ms ≠ [] →
      jsGet (ensureYearEntry (monthTitlesOf parsed) y) "months"
        = some (.arr (ms.map normalizeMonthEntry)) ∧
      (ms.map normalizeMonthEntry).length = ms.length) ∧
    (∀ m : Json, isArrayJ m = false →
      ∃ items : List Json, jsGet (normalizeMonthEntry m) "items" = some (.arr items)) := by
  subst hp
  refine ⟨?_, ?_, ?_, by decide, ?_, normalizeMonthEntry_has_items⟩
  · rw [ensureYearMonths_obj kvs ys hy]
    exact jsGet_jsSet_self kvs "years" _
  · intro y kvsy hy0 hms
    subst hy0
    rw [ensureYearEntry_synth (monthTitlesOf (Json.obj kvs)) kvsy hms]
    exact jsGet_jsSet_self kvsy "months" _
  · intro h
    unfold monthTitlesOf
    rw [h]
  · intro y kvsy ms hy0 hm hne
    subst hy0
    rw [ensureYearEntry_keep (monthTitlesOf (Json.obj kvs)) kvsy ms hm hne]
    exact ⟨jsGet_jsSet_self kvsy "months" _, List.length_map ms normalizeMonthEntry⟩

/-- Witness for C3 (amended) at a concrete input: a year entry without a
`months` field receives the 12 default fiscal-order buckets. -/
theorem c3_month_buckets_amended_witness :
    jsGet (ensureYearEntry (monthTitlesOf (Json.obj [("years", Json.arr [])]))
        (Json.obj [("year", Json.num 2021)])) "months"
      = some (.arr ((monthTitlesOf (Json.obj [("years", Json.arr [])])).map (fun t =>
          Json.obj [("title", .str t), ("items", .arr [])]))) :=
  (c3_month_buckets_amended (Json.obj [("years", .arr [])]) [("years", .arr [])] []
      rfl rfl).2.1
    (Json.obj [("year", Json.num 2021)]) [("year", Json.num 2021)] rfl
    (fun ms hms => Option.noConfusion hms)

/-- C6: over input years [2020, 2021, 2022] with chunk size 2 the chunks are
[2020, 2021] and [2022]; with the first chunk's response forced to the string
"not json" and the second chunk answering well-formed JSON, the failed chunk
still yields exactly two documents with ids JE-2020 and JE-2021, each carrying
the 12 synthetic month sections whose two journal lines are a 売掛金 debit of
`round(revenue·1,000,000/12) = 10,000,000` yen and the matching 売上 credit,
and the second chunk's document (JE-2022) is unaffected. -/
theorem c6_bulk_je_chunks :
    chunkArray c6History 2 = [[c6y2020, c6y2021], [c6y2022]] ∧
    generateBulkJE c6History 2 c6Respond =
      [fallbackJEDoc c6y2020, fallbackJEDoc c6y2021,
       { id := "JE-2022", type := .JE, year := .num 2022,
         title := "仕訳帳 2022年3月期",
         sections := [{ title := .str "4月", breakPage := false,
                        headers := jeHeaders, items := [] }] }] ∧
    (fallbackJEDoc c6y2020).id = "JE-2020" ∧
    (fallbackJEDoc c6y2021).id = "JE-2021" ∧
    (fallbackJEDoc c6y2020).sections = generateFallbackJESections c6y2020 ∧
    (generateFallbackJESections c6y2020).length = 12 ∧
    (generateFallbackJESections c6y2020).map
        (fun s => s.items.map (fun it => (it.account, it.debit, it.credit))) =
      List.replicate 12
        [(.str "売掛金", (10000000 : ℚ), (0 : ℚ)), (.str "売上", 0, 10000000)] := by
  have hm : fallbackMonthlyRevenue c6y2020 = 10000000 := by
    have h1 : c6y2020.revenue = 120 := rfl
    unfold fallbackMonthlyRevenue
    rw [h1]
    norm_num [jsRound]
  refine ⟨rfl, rfl, rfl, rfl, rfl, rfl, ?_⟩
  simp only [generateFallbackJESections, hm]
  rfl

/-- C7: the claim that any alternating newsletters array is paired positionally
into `{year, content}` objects is refuted on content strings carrying
surrounding whitespace: for `[2020, " text A "]` the produced pair holds the
trimmed content `"text A"`, not the positional value `" text A "`
(`String(items[i+1] || "").trim()`). -/
theorem c7_newsletter_pairing_counterexample :
    normalizeNewsletters c7Pad =
      .alt c7Pad [{ year := some ((2020 : ℤ) : ℚ), content := "text A" }] ∧
    "text A" ≠ " text A " :=
  ⟨rfl, by decide⟩

/-- C7 (amended): a truthy parsed value whose `newsletters` is an array passing
the alternating check takes the pairing branch; the loop pairs consecutive
elements positionally, each output pair holding the numeric year (a number
marker unchanged, a string marker through `Number(..)` after trimming) and the
trimmed content string. -/
theorem c7_newsletter_pairing_amended (parsed : Json) (items : List Json)
    (hp : jsTruthyJ parsed = true)
    (hn : jsGet parsed "newsletters" = some (.arr items))
    (ha : isAlternatingYearContent items = true) :
    normalizeNewsletters parsed = .alt parsed (pairLoop items) ∧
    (∀ y c : Json, ∀ rest : List Json,
      pairLoop (y :: c :: rest) = pairOf y (some c) :: pairLoop rest) ∧
    (∀ n : ℤ, ∀ next : Option Json,
      (pairOf (.num n) next).year = some ((n : ℤ) : ℚ)) ∧
    (∀ s : String, ∀ next : Option Json,
      (pairOf (.str s) next).year = jsStrToNumber s) ∧
    (∀ y : Json, ∀ c : String,
      (pairOf y (some (.str c))).content = String.mk (jsTrim c.toList)) := by
  refine ⟨?_, fun _ _ _ => rfl, fun _ _ => rfl, fun _ _ => rfl, ?_⟩
  · unfold normalizeNewsletters
    rw [hp, hn]
    show (if isAlternatingYearContent items then NNResult.alt parsed (pairLoop items)
      else NNResult.heuristic) = NNResult.alt parsed (pairLoop items)
    rw [if_pos ha]
  · intro y c
    by_cases hc : c = ""
    · subst hc; rfl
    · have hne : c.isEmpty = false :=
        Bool.eq_false_iff.mpr (fun h => hc ((String.isEmpty_iff c).mp h))
      have ht : jsTruthyJ (.str c) = true := by
        show (!c.isEmpty) = true
        rw [hne]
        rfl
      show String.mk (jsTrim (jsToStr (if jsTruthyJ (Json.str c) then Json.str c
        else Json.str "")).toList) = String.mk (jsTrim c.toList)
      rw [ht]
      rfl

/-- Witness for C7 (amended) at the claim's own scenario. -/
theorem c7_newsletter_pairing_amended_witness :
    normalizeNewsletters c7Good =
      .alt c7Good [{ year := some ((2020 : ℤ) : ℚ), content := "text A" },
                   { year := some ((2021 : ℤ) : ℚ), content := "text B" }] :=
  (c7_newsletter_pairing_amended c7Good
      [.num 2020, .str "text A", .num 2021, .str "text B"] rfl rfl (by decide)).1

end CNE
